import Mathlib

/-!
# Portfolio page script (`script.js`)

A shallow embedding of the page script: the contact-form submit listener, the
scroll and pointer listeners that drive the tweens on the loaded model, the
section and skill-bar scroll triggers, and the model-loader callbacks.

Conventions of the embedding.

* A JavaScript string is the list of its UTF-16 code units (`JSString`).
* A JavaScript number is an IEEE-754 binary64 value (`F64`): every arithmetic
  operation and every decimal literal is rounded to the nearest value, ties to
  the even significand, with signed zeros, infinities and `NaN`.
* Every listener is a function on an explicit page state; each DOM write and
  each call into the tweening library is also appended to a log kept in that
  state, in program order.
* The elements the script looks up by id are taken to exist.
-/

namespace Portfolio

/-! ## Strings -/

/-- One UTF-16 code unit. -/
abbrev CodeUnit := Nat

/-- A JavaScript string, as its sequence of UTF-16 code units. -/
abbrev JSString := List CodeUnit

/-- UTF-16 encoding of one Unicode scalar value. -/
def encodeUtf16 (c : Char) : List CodeUnit :=
  if c.toNat < 0x10000 then [c.toNat]
  else [0xD800 + (c.toNat - 0x10000) / 0x400, 0xDC00 + (c.toNat - 0x10000) % 0x400]

/-- The JavaScript string written by a source literal. -/
def utf16 (s : String) : JSString := s.toList.flatMap encodeUtf16

/-- ECMAScript `WhiteSpace` and `LineTerminator` code units: what
`String.prototype.trim` strips and what the class escape `\s` matches. -/
def isWhiteSpace (c : CodeUnit) : Bool :=
  c == 0x09 || c == 0x0A || c == 0x0B || c == 0x0C || c == 0x0D || c == 0x20 ||
  c == 0xA0 || c == 0x1680 || (0x2000 ≤ c && c ≤ 0x200A) || c == 0x2028 ||
  c == 0x2029 || c == 0x202F || c == 0x205F || c == 0x3000 || c == 0xFEFF

/-- `String.prototype.trimStart`. -/
def trimStart (s : JSString) : JSString := s.dropWhile isWhiteSpace

/-- `String.prototype.trimEnd`. -/
def trimEnd (s : JSString) : JSString := (s.reverse.dropWhile isWhiteSpace).reverse

/-- `String.prototype.trim`. -/
def trim (s : JSString) : JSString := trimEnd (trimStart s)

/-- `ToBoolean` of a string: only the empty string is falsy. -/
def truthy (s : JSString) : Bool := !s.isEmpty

/-! ## Numbers: IEEE-754 binary64 -/

/-- A JavaScript number: an IEEE-754 binary64 value. A finite value is
`(-1)^neg * m * 2^e`; the operations return it with `m < 2^53`,
`-1074 ≤ e ≤ 971`, and `2^52 ≤ m` unless `e = -1074`. -/
inductive F64 where
  | nan
  | inf (neg : Bool)
  | fin (neg : Bool) (m : Nat) (e : Int)
  deriving DecidableEq, Repr

namespace F64

/-- Recursion of `log2Floor`, on fuel. -/
def log2Go : Nat → Nat → Nat
  | 0, _ => 0
  | fuel + 1, n => if n < 2 then 0 else log2Go fuel (n / 2) + 1

/-- The floor of the binary logarithm of a positive natural number. -/
def log2Floor (n : Nat) : Nat := log2Go n n

/-- `n / d` rounded to the nearest integer, ties to even. -/
def roundHalfEven (n d : Nat) : Nat :=
  if 2 * (n % d) < d then n / d
  else if d < 2 * (n % d) then n / d + 1
  else if (n / d) % 2 = 0 then n / d
  else n / d + 1

/-- The floor of the binary logarithm of the positive rational `n / d`. -/
def log2Ratio (n d : Nat) : Int :=
  let g : Int := (log2Floor n : Int) - (log2Floor d : Int)
  if (if 0 ≤ g then d * 2 ^ g.toNat ≤ n else d ≤ n * 2 ^ (-g).toNat) then g else g - 1

/-- The exponent of the binary64 format for the positive rational `n / d`: its
significand has 53 bits, and the exponent is at least `-1074`. -/
def exponentOf (n d : Nat) : Int :=
  max (log2Ratio n d - 52) (-1074)

/-- The rational `(-1)^neg * n / d` (`d` positive) rounded to binary64, to the
nearest value and on a tie to the one with an even significand; a magnitude
that rounds to `2^1024` or more overflows to an infinity. -/
def round (neg : Bool) (n d : Nat) : F64 :=
  if n = 0 then .fin neg 0 (-1074)
  else
    let e := exponentOf n d
    let m := if 0 ≤ e then roundHalfEven n (d * 2 ^ e.toNat)
      else roundHalfEven (n * 2 ^ (-e).toNat) d
    let e2 := if m = 2 ^ 53 then e + 1 else e
    let m2 := if m = 2 ^ 53 then 2 ^ 52 else m
    if 971 < e2 then .inf neg else .fin neg m2 e2

/-- The rational `(-1)^neg * n * 2^e` rounded to binary64. -/
def roundScaled (neg : Bool) (n : Nat) (e : Int) : F64 :=
  if 0 ≤ e then round neg (n * 2 ^ e.toNat) 1 else round neg n (2 ^ (-e).toNat)

/-- The number written by the decimal literal `mantissa * 10^(∓exponent)`. -/
def ofScientific (mantissa : Nat) (exponentSign : Bool) (decimalExponent : Nat) : F64 :=
  if exponentSign then round false mantissa (10 ^ decimalExponent)
  else round false (mantissa * 10 ^ decimalExponent) 1

/-- The number written by an integer literal. -/
def ofNat (n : Nat) : F64 := round false n 1

/-- Unary minus. -/
def neg : F64 → F64
  | .nan => .nan
  | .inf s => .inf (!s)
  | .fin s m e => .fin (!s) m e

/-- A common exponent for two finite values: the smaller exponent, where a zero
significand leaves the choice to the other value. -/
def commonExp (m : Nat) (e : Int) (m2 : Nat) (e2 : Int) : Int :=
  if m = 0 then e2 else if m2 = 0 then e else min e e2

/-- The integer `(-1)^neg * m * 2^(e - c)`, for `c ≤ e` or `m = 0`. -/
def scaledInt (neg : Bool) (m : Nat) (e c : Int) : Int :=
  if neg then -((m * 2 ^ (e - c).toNat : Nat) : Int) else ((m * 2 ^ (e - c).toNat : Nat) : Int)

/-- Addition. -/
def add : F64 → F64 → F64
  | .nan, _ => .nan
  | _, .nan => .nan
  | .inf s, .inf t => if s = t then .inf s else .nan
  | .inf s, .fin _ _ _ => .inf s
  | .fin _ _ _, .inf t => .inf t
  | .fin s m e, .fin t m2 e2 =>
    let c := commonExp m e m2 e2
    let z := scaledInt s m e c + scaledInt t m2 e2 c
    if z = 0 then .fin (s && t) 0 (-1074)
    else roundScaled (decide (z < 0)) z.natAbs c

/-- Subtraction. -/
def sub (x y : F64) : F64 := add x (neg y)

/-- Multiplication. -/
def mul : F64 → F64 → F64
  | .nan, _ => .nan
  | _, .nan => .nan
  | .inf s, .inf t => .inf (s != t)
  | .inf s, .fin t m _ => if m = 0 then .nan else .inf (s != t)
  | .fin s m _, .inf t => if m = 0 then .nan else .inf (s != t)
  | .fin s m e, .fin t m2 e2 => roundScaled (s != t) (m * m2) (e + e2)

/-- Division. -/
def div : F64 → F64 → F64
  | .nan, _ => .nan
  | _, .nan => .nan
  | .inf _, .inf _ => .nan
  | .inf s, .fin t _ _ => .inf (s != t)
  | .fin s _ _, .inf t => .fin (s != t) 0 (-1074)
  | .fin s m e, .fin t m2 e2 =>
    if m2 = 0 then (if m = 0 then .nan else .inf (s != t))
    else if e2 ≤ e then round (s != t) (m * 2 ^ (e - e2).toNat) m2
    else round (s != t) m (m2 * 2 ^ (e2 - e).toNat)

/-- The comparison `x < y`: false when either side is `NaN`. -/
def lt : F64 → F64 → Bool
  | .nan, _ => false
  | _, .nan => false
  | .inf s, .inf t => s && !t
  | .inf s, .fin _ _ _ => s
  | .fin _ _ _, .inf t => !t
  | .fin s m e, .fin t m2 e2 =>
    decide (scaledInt s m e (commonExp m e m2 e2) < scaledInt t m2 e2 (commonExp m e m2 e2))

/-- The comparison `x <= y`: false when either side is `NaN`. -/
def le : F64 → F64 → Bool
  | .nan, _ => false
  | _, .nan => false
  | .inf s, .inf t => s || !t
  | .inf s, .fin _ _ _ => s
  | .fin _ _ _, .inf t => !t
  | .fin s m e, .fin t m2 e2 =>
    decide (scaledInt s m e (commonExp m e m2 e2) ≤ scaledInt t m2 e2 (commonExp m e m2 e2))

/-- The comparison `x > y`: false when either side is `NaN`. -/
def gt (x y : F64) : Bool := lt y x

/-- Whether the value is neither `NaN` nor an infinity. -/
def isFinite : F64 → Bool
  | .fin _ _ _ => true
  | _ => false

/-- The rational value of a finite number (0 for `NaN` and the infinities). -/
def toRat : F64 → ℚ
  | .fin s m e => (if s then -1 else 1) * ((m : ℚ) * (2 : ℚ) ^ e)
  | _ => 0

instance : OfScientific F64 := ⟨ofScientific⟩
instance (n : Nat) : OfNat F64 n := ⟨ofNat n⟩
instance : Neg F64 := ⟨neg⟩
instance : Add F64 := ⟨add⟩
instance : Sub F64 := ⟨sub⟩
instance : Mul F64 := ⟨mul⟩
instance : Div F64 := ⟨div⟩

end F64

/-! ## Regular expressions (the fragment used by `emailRegex`) -/

/-- A member of a bracketed character class. -/
inductive ClassItem where
  /-- The class escape `\s`. -/
  | space
  /-- A single code unit. -/
  | char (c : CodeUnit)
  deriving DecidableEq, Repr

/-- A bracketed character class, `[...]` or `[^...]`. -/
structure CharClass where
  negated : Bool
  items : List ClassItem
  deriving DecidableEq, Repr

/-- An atom consumes exactly one code unit. -/
inductive Atom where
  | cls (k : CharClass)
  | lit (c : CodeUnit)
  deriving DecidableEq, Repr

/-- A term of a pattern: an assertion, an atom, or an atom under greedy `+`. -/
inductive Term where
  /-- The assertion `^` (no multiline flag): start of input. -/
  | bol
  /-- The assertion `$` (no multiline flag): end of input. -/
  | eol
  | one (a : Atom)
  | plus (a : Atom)
  deriving DecidableEq, Repr

/-- A pattern is a sequence of terms. -/
abbrev Regex := List Term

def ClassItem.accepts : ClassItem → CodeUnit → Bool
  | .space, c => isWhiteSpace c
  | .char d, c => c == d

def CharClass.accepts (k : CharClass) (c : CodeUnit) : Bool :=
  k.negated != k.items.any fun it => it.accepts c

def Atom.accepts : Atom → CodeUnit → Bool
  | .cls k, c => k.accepts c
  | .lit d, c => c == d

/-- Greedy `a+` followed by the continuation `k`, with backtracking: consume one
accepted code unit, then first try to consume more, then try the continuation. -/
def matchPlus (acc : CodeUnit → Bool) (k : Nat → JSString → Bool) : Nat → JSString → Bool
  | _, [] => false
  | i, c :: s => acc c && (matchPlus acc k (i + 1) s || k (i + 1) s)

/-- Backtracking matcher: does the pattern match at index `i`, where the
remaining input is `s`? -/
def matchTerms : Regex → Nat → JSString → Bool
  | [], _, _ => true
  | .bol :: ts, i, s => i == 0 && matchTerms ts i s
  | .eol :: ts, i, s => s.isEmpty && matchTerms ts i s
  | .one _ :: _, _, [] => false
  | .one a :: ts, i, c :: s => a.accepts c && matchTerms ts (i + 1) s
  | .plus a :: ts, i, s => matchPlus a.accepts (matchTerms ts) i s

/-- `RegExp.prototype.test` for a pattern without the global or sticky flag:
try a match at every start index from 0 up to the length of the input. -/
def Regex.test (r : Regex) (s : JSString) : Bool :=
  (List.range (s.length + 1)).any fun i => matchTerms r i (s.drop i)

/-- The class `[^\s@]`. -/
def notSpaceNorAt : CharClass := ⟨true, [.space, .char 0x40]⟩

/-- The pattern (`script.js`, line 206): `^[^\s@]+@[^\s@]+\.[^\s@]+$`. -/
def emailRegex : Regex :=
  [.bol, .plus (.cls notSpaceNorAt), .one (.lit 0x40), .plus (.cls notSpaceNorAt),
   .one (.lit 0x2E), .plus (.cls notSpaceNorAt), .eol]

/-! ## The contact form -/

/-- The three validated fields. -/
inductive Field where
  | name
  | email
  | message
  deriving DecidableEq, Repr

/-- The callbacks the submit listener hands to `setTimeout`. -/
inductive TimerCallback where
  /-- Outer callback: remove the class `show`, then schedule `collapse`. -/
  | fadeOut
  /-- Inner callback: set `style.display` to `none`. -/
  | collapse
  deriving DecidableEq, Repr

/-- The DOM operations of the submit listener and its timers, as logged. -/
inductive DomOp where
  | preventDefault
  | setErrorText (f : Field) (text : JSString)
  | setDisplay (v : JSString)
  | classAdd (tok : JSString)
  | classRemove (tok : JSString)
  | setTimeout (cb : TimerCallback) (ms : Nat)
  | formReset
  deriving DecidableEq, Repr

/-- `DOMTokenList.add`: append the token unless it is already present. -/
def classListAdd (cl : List JSString) (tok : JSString) : List JSString :=
  if tok ∈ cl then cl else cl ++ [tok]

/-- `DOMTokenList.remove`. -/
def classListRemove (cl : List JSString) (tok : JSString) : List JSString :=
  cl.filter fun t => t != tok

/-- The part of the page the submit listener reads and writes. -/
structure FormPage where
  /-- Current `value` of the inputs `name`, `email`, `message`. -/
  nameValue : JSString
  emailValue : JSString
  messageValue : JSString
  /-- Default values of the three controls, restored by `form.reset()`. -/
  nameDefault : JSString
  emailDefault : JSString
  messageDefault : JSString
  /-- The `textContent` of `name-error`, `email-error`, `message-error`. -/
  nameError : JSString
  emailError : JSString
  messageError : JSString
  /-- The `style.display` of `confirmation-message`. -/
  confirmationDisplay : JSString
  /-- The `classList` of `confirmation-message`. -/
  confirmationClasses : List JSString
  /-- Whether `event.preventDefault()` was called. -/
  defaultPrevented : Bool
  /-- Pending timers, in scheduling order. -/
  timers : List (TimerCallback × Nat)
  /-- Every DOM operation performed so far, in program order. -/
  log : List DomOp
  deriving DecidableEq, Repr

namespace FormPage

def preventDefault (p : FormPage) : FormPage :=
  { p with defaultPrevented := true, log := p.log ++ [.preventDefault] }

/-- The assignment `document.getElementById('<field>-error').textContent = text`. -/
def setErrorText (p : FormPage) (f : Field) (text : JSString) : FormPage :=
  match f with
  | .name => { p with nameError := text, log := p.log ++ [.setErrorText .name text] }
  | .email => { p with emailError := text, log := p.log ++ [.setErrorText .email text] }
  | .message => { p with messageError := text, log := p.log ++ [.setErrorText .message text] }

/-- The assignment `confirmationMessage.style.display = v`. -/
def setDisplay (p : FormPage) (v : JSString) : FormPage :=
  { p with confirmationDisplay := v, log := p.log ++ [.setDisplay v] }

/-- The call `confirmationMessage.classList.add(tok)`. -/
def classAdd (p : FormPage) (tok : JSString) : FormPage :=
  { p with confirmationClasses := classListAdd p.confirmationClasses tok,
           log := p.log ++ [.classAdd tok] }

/-- The call `confirmationMessage.classList.remove(tok)`. -/
def classRemove (p : FormPage) (tok : JSString) : FormPage :=
  { p with confirmationClasses := classListRemove p.confirmationClasses tok,
           log := p.log ++ [.classRemove tok] }

/-- The call `setTimeout(cb, ms)`. -/
def setTimeout (p : FormPage) (cb : TimerCallback) (ms : Nat) : FormPage :=
  { p with timers := p.timers ++ [(cb, ms)], log := p.log ++ [.setTimeout cb ms] }

/-- The call `document.getElementById('contact-form').reset()`. -/
def formReset (p : FormPage) : FormPage :=
  { p with nameValue := p.nameDefault, emailValue := p.emailDefault,
           messageValue := p.messageDefault, log := p.log ++ [.formReset] }

end FormPage

/-- The name check (`script.js`, lines 209-214). -/
def checkName (p : FormPage) (isValid : Bool) : FormPage × Bool :=
  if !truthy (trim p.nameValue) then
    (p.setErrorText .name (utf16 "Please enter your name."), false)
  else
    (p.setErrorText .name (utf16 ""), isValid)

/-- The email check (`script.js`, lines 216-224). -/
def checkEmail (p : FormPage) (isValid : Bool) : FormPage × Bool :=
  if !truthy (trim p.emailValue) then
    (p.setErrorText .email (utf16 "Please enter your email."), false)
  else if !emailRegex.test p.emailValue then
    (p.setErrorText .email (utf16 "Please enter a valid email address."), false)
  else
    (p.setErrorText .email (utf16 ""), isValid)

/-- The message check (`script.js`, lines 226-231). -/
def checkMessage (p : FormPage) (isValid : Bool) : FormPage × Bool :=
  if !truthy (trim p.messageValue) then
    (p.setErrorText .message (utf16 "Please enter your message."), false)
  else
    (p.setErrorText .message (utf16 ""), isValid)

/-- The success branch (`script.js`, lines 234-245). -/
def onValid (p : FormPage) : FormPage :=
  let p := p.setDisplay (utf16 "block")
  let p := p.classAdd (utf16 "show")
  let p := p.setTimeout .fadeOut 3000
  p.formReset

/-- The submit listener of `contact-form` (`script.js`, lines 198-247). -/
def submitHandler (p : FormPage) : FormPage :=
  let p := p.preventDefault
  let r := checkName p true
  let r := checkEmail r.1 r.2
  let r := checkMessage r.1 r.2
  if r.2 then onValid r.1 else r.1

/-- Running a timer callback when it fires (`script.js`, lines 238-243). -/
def runTimer (p : FormPage) : TimerCallback → FormPage
  | .fadeOut => (p.classRemove (utf16 "show")).setTimeout .collapse 400
  | .collapse => p.setDisplay (utf16 "none")

/-- A page whose three inputs hold the given values, with empty defaults, empty
error slots, a hidden confirmation element and an empty log. -/
def FormPage.filled (name email message : JSString) : FormPage :=
  { nameValue := name, emailValue := email, messageValue := message,
    nameDefault := [], emailDefault := [], messageDefault := [],
    nameError := [], emailError := [], messageError := [],
    confirmationDisplay := utf16 "none", confirmationClasses := [],
    defaultPrevented := false, timers := [], log := [] }

/-! ## The scene, the model loader and the reactive listeners -/

/-- A JavaScript value that is a number or a string. -/
inductive JSValue where
  | num (q : F64)
  | str (s : JSString)
  deriving DecidableEq

/-- A three-component vector (`THREE.Vector3`, and the angles of `THREE.Euler`). -/
structure Vec3 where
  x : F64
  y : F64
  z : F64
  deriving DecidableEq

/-- A node of the loaded scene graph, with the flags the load callback touches. -/
inductive Node where
  | mk (isMesh castShadow receiveShadow : Bool) (children : List Node)

mutual
/-- The traversal of the load callback (`script.js`, lines 38-43): visit the node,
then every descendant; a mesh node is made to cast and to receive shadows. -/
def Node.markShadows : Node → Node
  | .mk isMesh castShadow receiveShadow children =>
    .mk isMesh (if isMesh then true else castShadow)
      (if isMesh then true else receiveShadow) (markShadowsList children)
/-- The traversal over a list of children. -/
def markShadowsList : List Node → List Node
  | [] => []
  | n :: ns => n.markShadows :: markShadowsList ns
end

/-- The loaded model (`gltf.scene`): its transform and its graph. -/
structure Model where
  scale : Vec3
  position : Vec3
  rotation : Vec3
  root : Node

/-- An element of the document, by identity. -/
abbrev ElemId := Nat

/-- The first argument of a `gsap.to` call. -/
inductive TweenTarget where
  /-- The object `head.position`. -/
  | headPosition
  /-- The object `head.rotation`. -/
  | headRotation
  /-- The object `directionalLight.position`. -/
  | lightPosition
  /-- The element `content-overlay`. -/
  | contentOverlay
  /-- The result of `item.querySelector('.progress-fill')`: an element or `null`. -/
  | progressFill (el : Option ElemId)
  deriving DecidableEq

/-- The second argument of a `gsap.to` call. -/
structure TweenVars where
  x : Option JSValue := none
  y : Option JSValue := none
  width : Option JSValue := none
  duration : F64
  ease : JSString
  deriving DecidableEq

/-- One `gsap.to(target, vars)` call. -/
abbrev Tween := TweenTarget × TweenVars

/-- The properties of the model the listeners read. -/
inductive HeadProp where
  | position
  | rotation
  deriving DecidableEq

/-- What the listeners of the scene do, as logged. -/
inductive Action where
  /-- A property read on `head`. -/
  | readHead (prop : HeadProp)
  | gsapTo (target : TweenTarget) (vars : TweenVars)
  /-- The call `header.classList.add(tok)`. -/
  | headerClassAdd (tok : JSString)
  /-- The call `header.classList.remove(tok)`. -/
  | headerClassRemove (tok : JSString)
  /-- The call `console.log(percent + '% loaded')`, with the number logged. -/
  | consoleLog (percent : F64)
  /-- The call `console.error` of the load-error callback. -/
  | consoleError
  deriving DecidableEq

/-- Objects added to the scene. -/
inductive SceneObject where
  | ambientLight
  | directionalLight
  | head
  deriving DecidableEq

/-- A run-time fault of a listener. -/
inductive Fault where
  /-- Reading a property of `undefined`. -/
  | typeError
  deriving DecidableEq

/-- The module state of the script and the window it reads. -/
structure Scene where
  /-- The variable `head` (line 32): `undefined` until the load callback runs. -/
  head : Option Model
  sceneObjects : List SceneObject
  innerWidth : F64
  innerHeight : F64
  scrollY : F64
  cameraAspect : F64
  rendererSize : F64 × F64
  headerClasses : List JSString
  headerOffsetHeight : F64
  /-- The variable `lastScrollY` (line 131). -/
  lastScrollY : F64
  /-- Every logged action so far, in program order. -/
  trace : List Action

namespace Scene

/-- The call `gsap.to(target, vars)`. -/
def gsapTo (s : Scene) (target : TweenTarget) (vars : TweenVars) : Scene :=
  { s with trace := s.trace ++ [.gsapTo target vars] }

/-- The property read `head.<prop>`: a `TypeError` when `head` is `undefined`. -/
def readHead (s : Scene) (prop : HeadProp) : Except Fault (Scene × TweenTarget) :=
  match s.head with
  | none => .error .typeError
  | some _ =>
    .ok ({ s with trace := s.trace ++ [.readHead prop] },
      match prop with
      | .position => .headPosition
      | .rotation => .headRotation)

end Scene

/-- The load callback (`script.js`, lines 34-45). -/
def onLoad (s : Scene) (gltfScene : Model) : Scene :=
  let head := gltfScene
  let head := { head with scale := ⟨0.4, 0.4, 0.4⟩ }
  let head := { head with position := ⟨0, -3, -5⟩ }
  let head := { head with root := head.root.markShadows }
  { s with head := some head, sceneObjects := s.sceneObjects ++ [.head] }

/-- The progress callback (`script.js`, lines 46-48). -/
def onProgress (s : Scene) (loaded total : F64) : Scene :=
  { s with trace := s.trace ++ [.consoleLog (loaded / total * 100)] }

/-- The error callback (`script.js`, lines 49-51). -/
def onError (s : Scene) : Scene :=
  { s with trace := s.trace ++ [.consoleError] }

/-- The resize listener (`script.js`, lines 74-78). -/
def resizeListener (s : Scene) : Scene :=
  { s with cameraAspect := s.innerWidth / s.innerHeight,
           rendererSize := (s.innerWidth, s.innerHeight) }

/-- The parallax scroll listener (`script.js`, lines 83-104). -/
def parallaxListener (s : Scene) : Except Fault Scene := do
  let scrollY := s.scrollY
  let s ←
    if s.head.isSome then do
      let (s, position) ← s.readHead .position
      pure (s.gsapTo position
        { y := some (.num (-3 + scrollY * -0.01)), duration := 0.8, ease := utf16 "power2.out" })
    else pure s
  let s := s.gsapTo .lightPosition
    { y := some (.num (10 + scrollY * 0.008)), duration := 0.8, ease := utf16 "power2.out" }
  let s := s.gsapTo .contentOverlay
    { y := some (.num (scrollY * 0.015)), duration := 0.8, ease := utf16 "power2.out" }
  pure s

/-- The local `mouseX` of the pointer listener (`script.js`, line 109). -/
def mouseX (clientX innerWidth : F64) : F64 := (clientX / innerWidth) * 2 - 1

/-- The local `mouseY` of the pointer listener (`script.js`, line 110). -/
def mouseY (clientY innerHeight : F64) : F64 := -(clientY / innerHeight) * 2 + 1

/-- The pointer listener (`script.js`, lines 108-120). -/
def mousemoveListener (s : Scene) (clientX clientY : F64) : Except Fault Scene := do
  let mx := mouseX clientX s.innerWidth
  let my := mouseY clientY s.innerHeight
  if s.head.isSome then do
    let (s, rotation) ← s.readHead .rotation
    pure (s.gsapTo rotation
      { y := some (.num (mx * 0.1)), x := some (.num (my * 0.1)), duration := 0.8,
        ease := utf16 "power2.out" })
  else pure s

/-- The header scroll listener (`script.js`, lines 132-140). -/
def headerListener (s : Scene) : Scene :=
  let currentScrollY := s.scrollY
  let s : Scene :=
    if currentScrollY.gt s.lastScrollY && currentScrollY.gt s.headerOffsetHeight then
      { s with headerClasses := classListAdd s.headerClasses (utf16 "hidden"),
               trace := s.trace ++ [.headerClassAdd (utf16 "hidden")] }
    else
      { s with headerClasses := classListRemove s.headerClasses (utf16 "hidden"),
               trace := s.trace ++ [.headerClassRemove (utf16 "hidden")] }
  { s with lastScrollY := currentScrollY }

/-- What the host delivers to the script. -/
inductive Event where
  /-- The window scrolled to the offset `scrollY`. -/
  | scroll (scrollY : F64)
  | mousemove (clientX clientY : F64)
  /-- The window was resized to the given inner width and height. -/
  | resize (innerWidth innerHeight : F64)
  | loadProgress (loaded total : F64)
  | loadError
  | loadSuccess (gltfScene : Model)

/-- Whether the event is the completion of the model load. -/
def Event.isLoadSuccess : Event → Bool
  | .loadSuccess _ => true
  | _ => false

/-- Deliver one event: the host updates the window, then the listeners of the
event run in registration order. -/
def dispatch (s : Scene) : Event → Except Fault Scene
  | .scroll scrollY => do
    let s ← parallaxListener { s with scrollY := scrollY }
    pure (headerListener s)
  | .mousemove clientX clientY => mousemoveListener s clientX clientY
  | .resize w h => pure (resizeListener { s with innerWidth := w, innerHeight := h })
  | .loadProgress loaded total => pure (onProgress s loaded total)
  | .loadError => pure (onError s)
  | .loadSuccess gltfScene => pure (onLoad s gltfScene)

/-- Deliver a sequence of events, stopping at the first fault. -/
def run (s : Scene) : List Event → Except Fault Scene
  | [] => pure s
  | e :: es => do
    let s ← dispatch s e
    run s es

/-- The `gsap.to` calls of a trace, in order. -/
def tweensOf (trace : List Action) : List Tween :=
  trace.filterMap fun a =>
    match a with
    | .gsapTo target vars => some (target, vars)
    | _ => none

/-- Whether an action reads the model or tweens its position or rotation. -/
def Action.touchesModel : Action → Bool
  | .readHead _ => true
  | .gsapTo .headPosition _ => true
  | .gsapTo .headRotation _ => true
  | _ => false

/-- The state right after the top-level code of the script has run, in a window
of the given size: the load is pending and nothing has been logged. -/
def Scene.initial (innerWidth innerHeight headerOffsetHeight : F64) : Scene :=
  { head := none, sceneObjects := [.ambientLight, .directionalLight],
    innerWidth := innerWidth, innerHeight := innerHeight, scrollY := 0,
    cameraAspect := innerWidth / innerHeight, rendererSize := (innerWidth, innerHeight),
    headerClasses := [], headerOffsetHeight := headerOffsetHeight, lastScrollY := 0,
    trace := [] }

/-- Example model: a group holding one mesh, untransformed. -/
def sampleModel : Model :=
  { scale := ⟨1, 1, 1⟩, position := ⟨0, 0, 0⟩, rotation := ⟨0, 0, 0⟩,
    root := .mk false false false [.mk true false false []] }

/-- Example scene: an 800 by 600 window, the model not loaded. -/
def pendingScene : Scene := Scene.initial 800 600 80

/-- Example scene: an 800 by 600 window, the model loaded. -/
def loadedScene : Scene := onLoad pendingScene sampleModel

/-- Example session without a successful load, ending after a load error. -/
def failedLoadSession : List Event :=
  [.scroll 120, .mousemove 10 20, .loadProgress 1 2, .resize 1024 768, .loadError,
   .scroll 300, .mousemove 5 5]

/-! ## Section and skill-bar triggers -/

/-- The four callbacks of a `ScrollTrigger`. -/
inductive TriggerEvent where
  | onEnter
  | onEnterBack
  | onLeave
  | onLeaveBack
  deriving DecidableEq

/-- Whether the callback is one of the two enter callbacks. -/
def TriggerEvent.isEnter : TriggerEvent → Bool
  | .onEnter => true
  | .onEnterBack => true
  | .onLeave => false
  | .onLeaveBack => false

/-- The callbacks registered for one section (`script.js`, lines 148-151), as a
function on the class list of that section. -/
def sectionCallback : TriggerEvent → List JSString → List JSString
  | .onEnter, cl => classListAdd cl (utf16 "show")
  | .onEnterBack, cl => classListAdd cl (utf16 "show")
  | .onLeave, cl => classListRemove cl (utf16 "show")
  | .onLeaveBack, cl => classListRemove cl (utf16 "show")

/-- Apply `f` to the element at index `i`, if there is one. -/
def updateAt {α : Type} (f : α → α) : Nat → List α → List α
  | _, [] => []
  | 0, a :: as => f a :: as
  | i + 1, a :: as => a :: updateAt f i as

/-- The trigger of the section at index `i` (in document order) fires `ev`; the
state is the class list of every section. -/
def fireSection (sections : List (List JSString)) (i : Nat) (ev : TriggerEvent) :
    List (List JSString) :=
  updateAt (sectionCallback ev) i sections

/-- A sequence of trigger events, each naming the section whose trigger fired. -/
def runSections (sections : List (List JSString)) (evs : List (Nat × TriggerEvent)) :
    List (List JSString) :=
  evs.foldl (fun secs e => fireSection secs e.1 e.2) sections

/-- Whether the section at index `i` carries the class `show`. -/
def isShown (sections : List (List JSString)) (i : Nat) : Bool :=
  match sections.get? i with
  | some cl => cl.contains (utf16 "show")
  | none => false

/-- Example page: three sections; the second already carries `show`. -/
def sampleSections : List (List JSString) :=
  [[utf16 "hero"], [utf16 "about", utf16 "show"], []]

/-- What the skill loop reads from one `.skill-item` (`script.js`, lines 159-161). -/
structure SkillItem where
  /-- The result of `item.querySelector('.progress-fill')`. -/
  progressFill : Option ElemId
  /-- The value of `item.dataset.progress`: `undefined` without the attribute. -/
  progress : Option JSString
  /-- The result of `item.querySelector('.skill-bar')`. -/
  skillBar : Option ElemId

/-- `ToString` of a value that is a string or `undefined`. -/
def toStringOrUndefined : Option JSString → JSString
  | some s => s
  | none => utf16 "undefined"

/-- The callbacks registered for one skill item (`script.js`, lines 165-192):
the `gsap.to` call each one makes. -/
def skillCallback (item : SkillItem) : TriggerEvent → Tween
  | .onEnter =>
    (.progressFill item.progressFill,
      { width := some (.str (toStringOrUndefined item.progress ++ utf16 "%")),
        duration := 1.2, ease := utf16 "power2.out" })
  | .onEnterBack =>
    (.progressFill item.progressFill,
      { width := some (.str (toStringOrUndefined item.progress ++ utf16 "%")),
        duration := 1.2, ease := utf16 "power2.out" })
  | .onLeave =>
    (.progressFill item.progressFill,
      { width := some (.num 0), duration := 1.2, ease := utf16 "power2.out" })
  | .onLeaveBack =>
    (.progressFill item.progressFill,
      { width := some (.num 0), duration := 1.2, ease := utf16 "power2.out" })

/-- The trigger of the skill item at index `i` fires `ev`: the tweens issued. -/
def fireSkill (items : List SkillItem) (i : Nat) (ev : TriggerEvent) : List Tween :=
  match items.get? i with
  | some item => [skillCallback item ev]
  | none => []

/-! ## Vocabulary of the properties -/

/-- The name check passes: the value is not blank. -/
def nameOk (v : JSString) : Bool := truthy (trim v)

/-- The email check passes: the value is not blank and matches `emailRegex`. -/
def emailOk (v : JSString) : Bool := truthy (trim v) && emailRegex.test v

/-- The message check passes: the value is not blank. -/
def messageOk (v : JSString) : Bool := truthy (trim v)

/-- The text the name slot ends with, as a function of the name value alone. -/
def nameErrorOf (v : JSString) : JSString :=
  if nameOk v then [] else utf16 "Please enter your name."

/-- The text the email slot ends with, as a function of the email value alone. -/
def emailErrorOf (v : JSString) : JSString :=
  if emailOk v then []
  else if truthy (trim v) then utf16 "Please enter a valid email address."
  else utf16 "Please enter your email."

/-- The text the message slot ends with, as a function of the message value alone. -/
def messageErrorOf (v : JSString) : JSString :=
  if messageOk v then [] else utf16 "Please enter your message."

/-- The shape `local@domain.tld`: a non-empty local part, an `@`, a non-empty
domain part, a dot and a non-empty last part, none of the three parts holding
white space or an `@`. -/
def EmailShape (s : JSString) : Prop :=
  ∃ l d t : JSString, s = l ++ 0x40 :: (d ++ 0x2E :: t) ∧ l ≠ [] ∧ d ≠ [] ∧ t ≠ [] ∧
    (∀ c ∈ l, isWhiteSpace c = false ∧ c ≠ 0x40) ∧
    (∀ c ∈ d, isWhiteSpace c = false ∧ c ≠ 0x40) ∧
    (∀ c ∈ t, isWhiteSpace c = false ∧ c ≠ 0x40)

/-- All three checks pass. -/
def passesValidation (p : FormPage) : Bool :=
  nameOk p.nameValue && emailOk p.emailValue && messageOk p.messageValue

/-- The page once the default action is prevented and each slot holds the text
its own field decides. -/
def afterChecks (p : FormPage) : FormPage :=
  ((p.preventDefault.setErrorText .name (nameErrorOf p.nameValue)).setErrorText .email
    (emailErrorOf p.emailValue)).setErrorText .message (messageErrorOf p.messageValue)

/-- Example page: name "Jane", email "jane@example.com", message "Hi". -/
def janePage : FormPage :=
  FormPage.filled (utf16 "Jane") (utf16 "jane@example.com") (utf16 "Hi")

/-- Example page: as `janePage`, but the message is a single space. -/
def blankMessagePage : FormPage :=
  FormPage.filled (utf16 "Jane") (utf16 "jane@example.com") (utf16 " ")

/-- Example page: as `janePage`, but the email is "foo@bar". -/
def fooBarPage : FormPage :=
  FormPage.filled (utf16 "Jane") (utf16 "foo@bar") (utf16 "Hi")

/-- Example page: all three fields empty, stale texts in the error slots. -/
def emptyPage : FormPage :=
  { FormPage.filled [] [] [] with
    nameError := utf16 "stale", emailError := utf16 "stale", messageError := utf16 "stale" }

/-- The operations one submission performs: what the listener adds to the log. -/
def submitOps (p : FormPage) : List DomOp :=
  (submitHandler p).log.drop p.log.length

/-- Whether an operation writes the error slot of the field `f`. -/
def DomOp.writesSlot (f : Field) : DomOp → Bool
  | .setErrorText g _ => g == f
  | _ => false

/-- The listener shows the confirmation element: it sets the display style to
`block` and adds the class `show`. -/
def showsConfirmation (p : FormPage) : Bool :=
  (submitOps p).contains (.setDisplay (utf16 "block")) &&
    (submitOps p).contains (.classAdd (utf16 "show"))

/-- The listener resets the form. -/
def resetsForm (p : FormPage) : Bool :=
  (submitOps p).contains .formReset

/-- The submission is treated as successful: confirmation shown and form reset. -/
def submissionSucceeds (p : FormPage) : Bool :=
  showsConfirmation p && resetsForm p

/-- Both operations occur in `ops`, the first occurrence of `a` before the first
occurrence of `b`. -/
def occursBefore (a b : DomOp) (ops : List DomOp) : Bool :=
  ops.contains a && ops.contains b && decide (ops.indexOf a < ops.indexOf b)

/-- The `gsap.to` calls that one scroll event adds to the trace (`none` on a
fault). -/
def scrollTweens (s : Scene) (scrollY : F64) : Option (List Tween) :=
  match dispatch s (.scroll scrollY) with
  | .ok s2 => some ((tweensOf s2.trace).drop (tweensOf s.trace).length)
  | .error _ => none

/-- The `gsap.to` calls that one pointer event adds to the trace (`none` on a
fault). -/
def pointerTweens (s : Scene) (clientX clientY : F64) : Option (List Tween) :=
  match dispatch s (.mousemove clientX clientY) with
  | .ok s2 => some ((tweensOf s2.trace).drop (tweensOf s.trace).length)
  | .error _ => none

/-- Example page: two skill items, configured with progress 75 and 40. -/
def sampleSkills : List SkillItem :=
  [{ progressFill := some 10, progress := some (utf16 "75"), skillBar := some 11 },
   { progressFill := some 20, progress := some (utf16 "40"), skillBar := some 21 }]

end Portfolio

/-! # Theorems -/

namespace Portfolio

/-! ## Auxiliary facts: strings and the email pattern -/

theorem truthy_eq_true_iff (s : JSString) : truthy s = true ↔ s ≠ [] := by
  cases s <;> simp [truthy]

theorem trimEnd_eq_nil_iff (s : JSString) :
    trimEnd s = [] ↔ ∀ c ∈ s, isWhiteSpace c = true := by
  simp [trimEnd, List.dropWhile_eq_nil_iff]

theorem trim_eq_nil_iff (s : JSString) :
    trim s = [] ↔ ∀ c ∈ s, isWhiteSpace c = true := by
  unfold trim trimStart
  rw [trimEnd_eq_nil_iff]
  constructor
  · intro h c hc
    by_cases hw : isWhiteSpace c = true
    · exact hw
    · exfalso
      induction s with
      | nil => simp at hc
      | cons a t ih =>
        by_cases ha : isWhiteSpace a = true
        · rw [List.dropWhile_cons_of_pos ha] at h
          rcases List.mem_cons.1 hc with rfl | hc
          · exact hw ha
          · exact ih h hc
        · rw [List.dropWhile_cons_of_neg ha] at h
          exact ha (h a (List.mem_cons_self _ _))
  · intro h c hc
    exact h c ((List.dropWhile_sublist _).subset hc)

theorem matchPlus_iff (acc : CodeUnit → Bool) (k : Nat → JSString → Bool) (i : Nat)
    (s : JSString) :
    matchPlus acc k i s = true ↔
      ∃ pre post, s = pre ++ post ∧ pre ≠ [] ∧ (∀ c ∈ pre, acc c = true) ∧
        k (i + pre.length) post = true := by
  induction s generalizing i with
  | nil =>
    simp only [matchPlus, Bool.false_eq_true, false_iff]
    rintro ⟨pre, post, h, hne, -, -⟩
    cases pre with
    | nil => exact hne rfl
    | cons a t => simp at h
  | cons c t ih =>
    simp only [matchPlus, Bool.and_eq_true, Bool.or_eq_true, ih]
    constructor
    · rintro ⟨hc, ⟨pre, post, rfl, -, hall, hk⟩ | hk⟩
      · refine ⟨c :: pre, post, rfl, by simp, ?_, ?_⟩
        · intro d hd
          rcases List.mem_cons.1 hd with rfl | hd
          · exact hc
          · exact hall d hd
        · simpa [Nat.add_assoc, Nat.add_comm 1] using hk
      · exact ⟨[c], t, rfl, by simp, by simpa using hc, by simpa using hk⟩
    · rintro ⟨pre, post, h, hne, hall, hk⟩
      cases pre with
      | nil => exact absurd rfl hne
      | cons a pre =>
        simp only [List.cons_append, List.cons.injEq] at h
        obtain ⟨rfl, rfl⟩ := h
        refine ⟨hall _ (List.mem_cons_self _ _), ?_⟩
        cases pre with
        | nil => right; simpa using hk
        | cons b pre =>
          left
          refine ⟨b :: pre, post, rfl, by simp, ?_, ?_⟩
          · intro d hd
            exact hall d (List.mem_cons_of_mem _ hd)
          · simpa [Nat.add_assoc, Nat.add_comm 1] using hk

theorem notSpaceNorAt_accepts (c : CodeUnit) :
    notSpaceNorAt.accepts c = true ↔ isWhiteSpace c = false ∧ c ≠ 0x40 := by
  simp [notSpaceNorAt, CharClass.accepts, ClassItem.accepts]

/-- The anchored pattern can only match at index 0. -/
theorem emailRegex_test_eq (s : JSString) :
    emailRegex.test s = matchTerms emailRegex 0 s := by
  unfold Regex.test
  rw [Bool.eq_iff_iff, List.any_eq_true]
  constructor
  · rintro ⟨i, -, hi⟩
    cases i with
    | zero => simpa using hi
    | succ n => simp [emailRegex, matchTerms] at hi
  · intro h
    exact ⟨0, by simp, by simpa using h⟩

theorem matchTerms_one_iff (a : Atom) (ts : Regex) (i : Nat) (s : JSString) :
    matchTerms (.one a :: ts) i s = true ↔
      ∃ c rest, s = c :: rest ∧ a.accepts c = true ∧ matchTerms ts (i + 1) rest = true := by
  cases s with
  | nil => simp [matchTerms]
  | cons c rest =>
    simp only [matchTerms, Bool.and_eq_true, List.cons.injEq]
    constructor
    · rintro ⟨h1, h2⟩
      exact ⟨c, rest, ⟨rfl, rfl⟩, h1, h2⟩
    · rintro ⟨_, _, ⟨rfl, rfl⟩, h1, h2⟩
      exact ⟨h1, h2⟩

theorem matchTerms_plus_iff (a : Atom) (ts : Regex) (i : Nat) (s : JSString) :
    matchTerms (.plus a :: ts) i s = true ↔
      ∃ pre post, s = pre ++ post ∧ pre ≠ [] ∧ (∀ c ∈ pre, a.accepts c = true) ∧
        matchTerms ts (i + pre.length) post = true := by
  rw [matchTerms, matchPlus_iff]

theorem emailRegex_test_iff (s : JSString) : emailRegex.test s = true ↔ EmailShape s := by
  rw [emailRegex_test_eq]
  unfold emailRegex EmailShape
  simp only [matchTerms, beq_self_eq_true, Bool.true_and]
  rw [matchPlus_iff]
  constructor
  · rintro ⟨l, post, rfl, hl, hla, hk⟩
    rw [matchTerms_one_iff] at hk
    obtain ⟨c, rest, rfl, hc, hk⟩ := hk
    rw [matchTerms_plus_iff] at hk
    obtain ⟨d, post, rfl, hd, hda, hk⟩ := hk
    rw [matchTerms_one_iff] at hk
    obtain ⟨c2, rest, rfl, hc2, hk⟩ := hk
    rw [matchTerms_plus_iff] at hk
    obtain ⟨t, post, rfl, ht, hta, hk⟩ := hk
    simp only [matchTerms, Bool.and_true, List.isEmpty_iff] at hk
    subst hk
    simp only [Atom.accepts, beq_iff_eq] at hc hc2
    subst hc hc2
    refine ⟨l, d, t, by simp, hl, hd, ht, ?_, ?_, ?_⟩
    · intro c hc; exact (notSpaceNorAt_accepts c).1 (hla c hc)
    · intro c hc; exact (notSpaceNorAt_accepts c).1 (hda c hc)
    · intro c hc; exact (notSpaceNorAt_accepts c).1 (hta c hc)
  · rintro ⟨l, d, t, rfl, hl, hd, ht, hla, hda, hta⟩
    refine ⟨l, _, rfl, hl, fun c hc => (notSpaceNorAt_accepts c).2 (hla c hc), ?_⟩
    rw [matchTerms_one_iff]
    refine ⟨_, _, rfl, by simp [Atom.accepts], ?_⟩
    rw [matchTerms_plus_iff]
    refine ⟨d, _, rfl, hd, fun c hc => (notSpaceNorAt_accepts c).2 (hda c hc), ?_⟩
    rw [matchTerms_one_iff]
    refine ⟨_, _, rfl, by simp [Atom.accepts], ?_⟩
    rw [matchTerms_plus_iff]
    exact ⟨t, [], by simp, ht, fun c hc => (notSpaceNorAt_accepts c).2 (hta c hc),
      by simp [matchTerms]⟩

theorem trim_ne_nil_of_emailRegex_test (s : JSString) (h : emailRegex.test s = true) :
    trim s ≠ [] := by
  obtain ⟨l, d, t, rfl, hl, -, -, hla, -, -⟩ := (emailRegex_test_iff s).1 h
  intro hnil
  rw [trim_eq_nil_iff] at hnil
  cases l with
  | nil => exact hl rfl
  | cons c l =>
    have h1 := hnil c (by simp)
    have h2 := (hla c (List.mem_cons_self _ _)).1
    rw [h1] at h2
    exact Bool.noConfusion h2

theorem utf16_empty : utf16 "" = [] := by decide

theorem submitHandler_eq (p : FormPage) :
    submitHandler p = if passesValidation p then onValid (afterChecks p) else afterChecks p := by
  unfold submitHandler checkMessage checkEmail checkName passesValidation afterChecks
    nameErrorOf emailErrorOf messageErrorOf nameOk emailOk messageOk
  simp only [utf16_empty, FormPage.preventDefault, FormPage.setErrorText]
  cases h1 : truthy (trim p.nameValue) <;> cases h2 : truthy (trim p.emailValue) <;>
    cases h3 : emailRegex.test p.emailValue <;> cases h4 : truthy (trim p.messageValue) <;>
    simp [h1, h2, h3, h4]

theorem afterChecks_log (p : FormPage) :
    (afterChecks p).log = p.log ++ [.preventDefault, .setErrorText .name (nameErrorOf p.nameValue),
      .setErrorText .email (emailErrorOf p.emailValue),
      .setErrorText .message (messageErrorOf p.messageValue)] := by
  simp [afterChecks, FormPage.preventDefault, FormPage.setErrorText]

theorem onValid_log (p : FormPage) :
    (onValid p).log = p.log ++ [.setDisplay (utf16 "block"), .classAdd (utf16 "show"),
      .setTimeout .fadeOut 3000, .formReset] := by
  simp [onValid, FormPage.setDisplay, FormPage.classAdd, FormPage.setTimeout, FormPage.formReset]

theorem submitOps_eq (p : FormPage) :
    submitOps p = [.preventDefault, .setErrorText .name (nameErrorOf p.nameValue),
      .setErrorText .email (emailErrorOf p.emailValue),
      .setErrorText .message (messageErrorOf p.messageValue)] ++
      (if passesValidation p then [.setDisplay (utf16 "block"), .classAdd (utf16 "show"),
        .setTimeout .fadeOut 3000, .formReset] else []) := by
  unfold submitOps
  rw [submitHandler_eq]
  split <;> simp [onValid_log, afterChecks_log]

theorem passesValidation_iff (p : FormPage) :
    passesValidation p = true ↔
      trim p.nameValue ≠ [] ∧ (p.emailValue ≠ [] ∧ emailRegex.test p.emailValue = true) ∧
        trim p.messageValue ≠ [] := by
  simp only [passesValidation, nameOk, emailOk, messageOk, Bool.and_eq_true, truthy_eq_true_iff]
  constructor
  · rintro ⟨⟨hn, he, ht⟩, hm⟩
    refine ⟨hn, ⟨?_, ht⟩, hm⟩
    intro h0
    rw [h0] at he
    exact he rfl
  · rintro ⟨hn, ⟨-, ht⟩, hm⟩
    exact ⟨⟨hn, trim_ne_nil_of_emailRegex_test _ ht, ht⟩, hm⟩

theorem submitOps_of_valid (p : FormPage) (h : passesValidation p = true) :
    submitOps p = [.preventDefault, .setErrorText .name [], .setErrorText .email [],
      .setErrorText .message [], .setDisplay (utf16 "block"), .classAdd (utf16 "show"),
      .setTimeout .fadeOut 3000, .formReset] := by
  have h2 := h
  simp only [passesValidation, Bool.and_eq_true] at h2
  obtain ⟨⟨hn, he⟩, hm⟩ := h2
  rw [submitOps_eq, if_pos h]
  simp [nameErrorOf, emailErrorOf, messageErrorOf, hn, he, hm]

theorem submissionSucceeds_eq (p : FormPage) : submissionSucceeds p = passesValidation p := by
  cases h : passesValidation p
  · simp [submissionSucceeds, showsConfirmation, resetsForm, submitOps_eq, h]
  · simp [submissionSucceeds, showsConfirmation, resetsForm, submitOps_of_valid p h]

theorem showsConfirmation_eq (p : FormPage) : showsConfirmation p = passesValidation p := by
  cases h : passesValidation p
  · simp [showsConfirmation, submitOps_eq, h]
  · simp [showsConfirmation, submitOps_of_valid p h]

theorem resetsForm_eq (p : FormPage) : resetsForm p = passesValidation p := by
  cases h : passesValidation p
  · simp [resetsForm, submitOps_eq, h]
  · simp [resetsForm, submitOps_of_valid p h]

/-- C1, as stated, fails: with name "Jane", email "jane@example.com" and a
message of one space, the name is non-blank, the email is non-empty and matches
the pattern and the message is non-empty, yet the submission is not treated as
successful. -/
theorem C1_blank_message_counterexample :
    ¬ (submissionSucceeds blankMessagePage = true ↔
        trim blankMessagePage.nameValue ≠ [] ∧
        (blankMessagePage.emailValue ≠ [] ∧
          emailRegex.test blankMessagePage.emailValue = true) ∧
        blankMessagePage.messageValue ≠ []) := by
  decide

/-- C1, amended: the submission is treated as successful (confirmation shown and
form reset) exactly when the name is non-empty after trimming, the email is
non-empty and matches the pattern, and the message is non-empty after trimming;
when a check fails, the display style and the class list of the confirmation
element are as before, nothing is shown, the form is not reset and the field
values are kept. -/
theorem C1_success_iff_checks (p : FormPage) :
    (submissionSucceeds p = true ↔
      trim p.nameValue ≠ [] ∧ (p.emailValue ≠ [] ∧ emailRegex.test p.emailValue = true) ∧
        trim p.messageValue ≠ []) ∧
    (¬ (trim p.nameValue ≠ [] ∧ (p.emailValue ≠ [] ∧ emailRegex.test p.emailValue = true) ∧
        trim p.messageValue ≠ []) →
      (submitHandler p).confirmationDisplay = p.confirmationDisplay ∧
      (submitHandler p).confirmationClasses = p.confirmationClasses ∧
      showsConfirmation p = false ∧ resetsForm p = false ∧
      (submitHandler p).nameValue = p.nameValue ∧
      (submitHandler p).emailValue = p.emailValue ∧
      (submitHandler p).messageValue = p.messageValue) := by
  refine ⟨by rw [submissionSucceeds_eq, passesValidation_iff], ?_⟩
  intro h
  rw [← passesValidation_iff, Bool.not_eq_true] at h
  rw [showsConfirmation_eq, resetsForm_eq, submitHandler_eq, h]
  simp [afterChecks, FormPage.preventDefault, FormPage.setErrorText]

/-- C1, amended, at the page with a one-space message: a check fails, and the
confirmation element and the form are left alone. -/
theorem C1_success_iff_checks_witness :
    (submitHandler blankMessagePage).confirmationDisplay = blankMessagePage.confirmationDisplay ∧
    (submitHandler blankMessagePage).confirmationClasses =
      blankMessagePage.confirmationClasses ∧
    showsConfirmation blankMessagePage = false ∧ resetsForm blankMessagePage = false ∧
    (submitHandler blankMessagePage).nameValue = blankMessagePage.nameValue ∧
    (submitHandler blankMessagePage).emailValue = blankMessagePage.emailValue ∧
    (submitHandler blankMessagePage).messageValue = blankMessagePage.messageValue :=
  (C1_success_iff_checks blankMessagePage).2 (by decide)

/-- C2: on every submission each error slot is written exactly once, with the
text its own field decides (empty exactly when that field passes), whatever the
other fields and the old slot contents are; and with all three fields empty the
three slots end non-empty and the confirmation element is not shown. -/
theorem C2_no_short_circuit (p : FormPage) :
    ((submitOps p).filter (DomOp.writesSlot .name) =
        [.setErrorText .name (nameErrorOf p.nameValue)] ∧
      (submitOps p).filter (DomOp.writesSlot .email) =
        [.setErrorText .email (emailErrorOf p.emailValue)] ∧
      (submitOps p).filter (DomOp.writesSlot .message) =
        [.setErrorText .message (messageErrorOf p.messageValue)]) ∧
    ((submitHandler p).nameError = nameErrorOf p.nameValue ∧
      (submitHandler p).emailError = emailErrorOf p.emailValue ∧
      (submitHandler p).messageError = messageErrorOf p.messageValue) ∧
    ((nameErrorOf p.nameValue = [] ↔ nameOk p.nameValue = true) ∧
      (emailErrorOf p.emailValue = [] ↔ emailOk p.emailValue = true) ∧
      (messageErrorOf p.messageValue = [] ↔ messageOk p.messageValue = true)) ∧
    (p.nameValue = [] ∧ p.emailValue = [] ∧ p.messageValue = [] →
      (submitHandler p).nameError ≠ [] ∧ (submitHandler p).emailError ≠ [] ∧
      (submitHandler p).messageError ≠ [] ∧ showsConfirmation p = false ∧
      (submitHandler p).confirmationDisplay = p.confirmationDisplay ∧
      (submitHandler p).confirmationClasses = p.confirmationClasses) := by
  have hslots : (submitHandler p).nameError = nameErrorOf p.nameValue ∧
      (submitHandler p).emailError = emailErrorOf p.emailValue ∧
      (submitHandler p).messageError = messageErrorOf p.messageValue := by
    rw [submitHandler_eq]
    split <;>
      simp [onValid, afterChecks, FormPage.preventDefault, FormPage.setErrorText,
        FormPage.setDisplay, FormPage.classAdd, FormPage.setTimeout, FormPage.formReset]
  have hn : nameErrorOf p.nameValue = [] ↔ nameOk p.nameValue = true := by
    unfold nameErrorOf
    cases nameOk p.nameValue
    · simp only [Bool.false_eq_true, if_false, iff_false]; decide
    · simp
  have he : emailErrorOf p.emailValue = [] ↔ emailOk p.emailValue = true := by
    unfold emailErrorOf
    cases emailOk p.emailValue
    · simp only [Bool.false_eq_true, if_false, iff_false]
      split <;> decide
    · simp
  have hm : messageErrorOf p.messageValue = [] ↔ messageOk p.messageValue = true := by
    unfold messageErrorOf
    cases messageOk p.messageValue
    · simp only [Bool.false_eq_true, if_false, iff_false]; decide
    · simp
  refine ⟨?_, hslots, ⟨hn, he, hm⟩, ?_⟩
  · rw [submitOps_eq]
    split <;> simp [DomOp.writesSlot]
  · rintro ⟨h1, h2, h3⟩
    have hv : passesValidation p = false := by
      simp [passesValidation, nameOk, h1, trim, trimStart, trimEnd, truthy]
    obtain ⟨s1, s2, s3⟩ := hslots
    rw [s1, s2, s3, showsConfirmation_eq, hv]
    refine ⟨?_, ?_, ?_, rfl, ?_⟩
    · rw [Ne, hn, h1]; decide
    · rw [Ne, he, h2]; decide
    · rw [Ne, hm, h3]; decide
    · rw [submitHandler_eq, hv]
      simp [afterChecks, FormPage.preventDefault, FormPage.setErrorText]

/-- C2 at the page with three empty fields and stale slot texts: three
non-empty errors, nothing shown. -/
theorem C2_no_short_circuit_witness :
    (submitHandler emptyPage).nameError ≠ [] ∧ (submitHandler emptyPage).emailError ≠ [] ∧
    (submitHandler emptyPage).messageError ≠ [] ∧ showsConfirmation emptyPage = false ∧
    (submitHandler emptyPage).confirmationDisplay = emptyPage.confirmationDisplay ∧
    (submitHandler emptyPage).confirmationClasses = emptyPage.confirmationClasses :=
  (C2_no_short_circuit emptyPage).2.2.2 (by decide)

/-- C3: when the email is not blank but does not match the pattern, whatever
the name and the message are, the email slot ends with 'Please enter a valid
email address.', which differs from the text for a blank email, and the
confirmation element is not shown. -/
theorem C3_malformed_email (p : FormPage) (hblank : trim p.emailValue ≠ [])
    (hshape : emailRegex.test p.emailValue = false) :
    (submitHandler p).emailError = utf16 "Please enter a valid email address." ∧
    utf16 "Please enter a valid email address." ≠ utf16 "Please enter your email." ∧
    showsConfirmation p = false ∧
    (submitHandler p).confirmationDisplay = p.confirmationDisplay ∧
    (submitHandler p).confirmationClasses = p.confirmationClasses := by
  have hv : passesValidation p = false := by
    simp [passesValidation, emailOk, hshape]
  have ht : truthy (trim p.emailValue) = true := (truthy_eq_true_iff _).2 hblank
  rw [showsConfirmation_eq, submitHandler_eq, hv]
  refine ⟨?_, by decide, rfl, ?_, ?_⟩ <;>
    simp [afterChecks, FormPage.preventDefault, FormPage.setErrorText, emailErrorOf, emailOk,
      hshape, ht]

/-- C3 at name "Jane", email "foo@bar", message "Hi". -/
theorem C3_malformed_email_witness :
    (submitHandler fooBarPage).emailError = utf16 "Please enter a valid email address." ∧
    utf16 "Please enter a valid email address." ≠ utf16 "Please enter your email." ∧
    showsConfirmation fooBarPage = false ∧
    (submitHandler fooBarPage).confirmationDisplay = fooBarPage.confirmationDisplay ∧
    (submitHandler fooBarPage).confirmationClasses = fooBarPage.confirmationClasses :=
  C3_malformed_email fooBarPage (by decide) (by decide)

/-- C4: when all three fields pass validation, after the listener returns the
three error slots are empty, the confirmation element is shown (display
'block', class 'show' present) and the three field values are back at their
defaults. -/
theorem C4_valid_submission (p : FormPage) (hn : nameOk p.nameValue = true)
    (he : emailOk p.emailValue = true) (hm : messageOk p.messageValue = true) :
    ((submitHandler p).nameError = [] ∧ (submitHandler p).emailError = [] ∧
      (submitHandler p).messageError = []) ∧
    ((submitHandler p).confirmationDisplay = utf16 "block" ∧
      utf16 "show" ∈ (submitHandler p).confirmationClasses ∧ showsConfirmation p = true) ∧
    ((submitHandler p).nameValue = p.nameDefault ∧
      (submitHandler p).emailValue = p.emailDefault ∧
      (submitHandler p).messageValue = p.messageDefault ∧ resetsForm p = true) := by
  have hv : passesValidation p = true := by simp [passesValidation, hn, he, hm]
  rw [showsConfirmation_eq, resetsForm_eq, submitHandler_eq, hv]
  simp only [if_true, onValid, afterChecks, FormPage.preventDefault, FormPage.setErrorText,
    FormPage.setDisplay, FormPage.classAdd, FormPage.setTimeout, FormPage.formReset,
    nameErrorOf, emailErrorOf, messageErrorOf, hn, he, hm, and_self, and_true, true_and]
  unfold classListAdd
  split
  · assumption
  · simp

/-- C4 at name "Jane", email "jane@example.com", message "Hi". -/
theorem C4_valid_submission_witness :
    ((submitHandler janePage).nameError = [] ∧ (submitHandler janePage).emailError = [] ∧
      (submitHandler janePage).messageError = []) ∧
    ((submitHandler janePage).confirmationDisplay = utf16 "block" ∧
      utf16 "show" ∈ (submitHandler janePage).confirmationClasses ∧
      showsConfirmation janePage = true) ∧
    ((submitHandler janePage).nameValue = janePage.nameDefault ∧
      (submitHandler janePage).emailValue = janePage.emailDefault ∧
      (submitHandler janePage).messageValue = janePage.messageDefault ∧
      resetsForm janePage = true) :=
  C4_valid_submission janePage (by decide) (by decide) (by decide)

/-- C5, as stated, fails: on the successful submission of "Jane",
"jane@example.com", "Hi" the form reset does not come before the display
assignment and the class addition that show the confirmation element. -/
theorem C5_reset_first_counterexample :
    ¬ (occursBefore .formReset (.setDisplay (utf16 "block")) (submitOps janePage) = true ∧
        occursBefore .formReset (.classAdd (utf16 "show")) (submitOps janePage) = true) := by
  decide

/-- C5, amended: on every successful submission the confirmation element is
shown first (display set to 'block', then class 'show' added), then the hide
timer is scheduled, and the form is reset last. -/
theorem C5_show_then_reset (p : FormPage) (h : passesValidation p = true) :
    submitOps p = [.preventDefault, .setErrorText .name [], .setErrorText .email [],
      .setErrorText .message [], .setDisplay (utf16 "block"), .classAdd (utf16 "show"),
      .setTimeout .fadeOut 3000, .formReset] ∧
    occursBefore (.setDisplay (utf16 "block")) (.classAdd (utf16 "show")) (submitOps p) = true ∧
    occursBefore (.classAdd (utf16 "show")) (.setTimeout .fadeOut 3000) (submitOps p) = true ∧
    occursBefore (.setTimeout .fadeOut 3000) .formReset (submitOps p) = true := by
  rw [submitOps_of_valid p h]
  exact ⟨rfl, by decide, by decide, by decide⟩

/-- C5, amended, at name "Jane", email "jane@example.com", message "Hi". -/
theorem C5_show_then_reset_witness :
    submitOps janePage = [.preventDefault, .setErrorText .name [], .setErrorText .email [],
      .setErrorText .message [], .setDisplay (utf16 "block"), .classAdd (utf16 "show"),
      .setTimeout .fadeOut 3000, .formReset] ∧
    occursBefore (.setDisplay (utf16 "block")) (.classAdd (utf16 "show"))
      (submitOps janePage) = true ∧
    occursBefore (.classAdd (utf16 "show")) (.setTimeout .fadeOut 3000)
      (submitOps janePage) = true ∧
    occursBefore (.setTimeout .fadeOut 3000) .formReset (submitOps janePage) = true :=
  C5_show_then_reset janePage (by decide)

/-! ## Binary64 arithmetic: bounds on rounded results -/

set_option maxRecDepth 100000

namespace F64

theorem log2Go_spec (fuel n : Nat) (hn : n ≠ 0) (hf : n ≤ fuel) :
    2 ^ log2Go fuel n ≤ n ∧ n < 2 ^ (log2Go fuel n + 1) := by
  induction fuel generalizing n with
  | zero => omega
  | succ f ih =>
    unfold log2Go
    by_cases h2 : n < 2
    · simp only [h2, if_true]
      omega
    · simp only [h2, if_false]
      have hn2 : n / 2 ≠ 0 := by omega
      have hf2 : n / 2 ≤ f := by omega
      obtain ⟨h1, h3⟩ := ih (n / 2) hn2 hf2
      constructor
      · rw [Nat.pow_succ]; omega
      · rw [Nat.pow_succ]; omega

theorem log2Floor_spec (n : Nat) (hn : n ≠ 0) :
    2 ^ log2Floor n ≤ n ∧ n < 2 ^ (log2Floor n + 1) :=
  log2Go_spec n n hn (Nat.le_refl n)

theorem roundHalfEven_le (n d N : Nat) (hd : 0 < d) (h : n ≤ N * d) :
    roundHalfEven n d ≤ N := by
  have hq : n / d ≤ N := Nat.div_le_of_le_mul (by rwa [Nat.mul_comm] at h)
  unfold roundHalfEven
  by_cases hlt : n / d < N
  · split
    · omega
    · split
      · omega
      · split <;> omega
  · have heq : n / d = N := by omega
    have hmod : n % d = 0 := by
      have h1 := Nat.div_add_mod n d
      rw [heq] at h1
      have h2 : d * N = N * d := Nat.mul_comm _ _
      omega
    simp only [hmod, Nat.mul_zero, hd, if_true]
    omega

theorem roundHalfEven_eq_zero (n d : Nat) (h : 2 * n ≤ d) : roundHalfEven n d = 0 := by
  unfold roundHalfEven
  by_cases hn : n = 0
  · subst hn
    simp
  · have hlt : n < d := by omega
    have hq : n / d = 0 := Nat.div_eq_of_lt hlt
    have hr : n % d = n := Nat.mod_eq_of_lt hlt
    simp only [hq, hr]
    split
    · rfl
    · split
      · omega
      · simp

theorem roundHalfEven_zero (d : Nat) : roundHalfEven 0 d = 0 :=
  roundHalfEven_eq_zero 0 d (by omega)


theorem exponentOf_le (n d k : Nat) (hn : n ≠ 0) (hd : 0 < d) (h : n ≤ 2 ^ k * d) :
    exponentOf n d ≤ max ((k : Int) - 52) (-1074) := by
  obtain ⟨hn1, -⟩ := log2Floor_spec n hn
  obtain ⟨-, hd2⟩ := log2Floor_spec d (by omega)
  have hlt : 2 ^ log2Floor n < 2 ^ (k + log2Floor d + 1) := by
    calc 2 ^ log2Floor n ≤ n := hn1
      _ ≤ 2 ^ k * d := h
      _ < 2 ^ k * 2 ^ (log2Floor d + 1) :=
          Nat.mul_lt_mul_of_pos_left hd2 (show 0 < 2 ^ k by positivity)
      _ = 2 ^ (k + log2Floor d + 1) := by rw [← Nat.pow_add]; rfl
  have hlog : log2Floor n < k + log2Floor d + 1 :=
    (Nat.pow_lt_pow_iff_right (by norm_num)).1 hlt
  have hr : log2Ratio n d ≤ (k : Int) := by
    unfold log2Ratio
    simp only
    split <;> omega
  unfold exponentOf
  omega

theorem cast_bound_nonneg (m E k : Nat) (h : m * 2 ^ E ≤ 2 ^ k) :
    (m : ℚ) * (2 : ℚ) ^ (E : Int) ≤ 2 ^ k := by
  rw [zpow_natCast]
  exact_mod_cast h

theorem cast_bound_neg (m E k : Nat) (h : m ≤ 2 ^ (k + E)) :
    (m : ℚ) * (2 : ℚ) ^ (-(E : Int)) ≤ 2 ^ k := by
  have h1 : (m : ℚ) ≤ 2 ^ k * 2 ^ E := by
    rw [← pow_add]
    exact_mod_cast h
  rw [zpow_neg, zpow_natCast]
  have hpos : (0 : ℚ) < 2 ^ E := by positivity
  rw [← div_eq_mul_inv, div_le_iff₀ hpos]
  exact h1

/-- The significand and exponent that `round` computes stay within a power of
two that bounds the exact magnitude. -/
theorem round_bound (s : Bool) (n d k : Nat) (hd : 0 < d) (hk : k ≤ 1022)
    (h : n ≤ 2 ^ k * d) :
    ∃ m e, round s n d = .fin s m e ∧ (m : ℚ) * (2 : ℚ) ^ e ≤ 2 ^ k ∧ (n = 0 → m = 0) := by
  by_cases hn : n = 0
  · refine ⟨0, -1074, by simp [round, hn], by simp, fun _ => rfl⟩
  · have he := exponentOf_le n d k hn hd h
    have he971 : exponentOf n d ≤ 970 := by omega
    -- the rounded significand before renormalising
    have key : ∃ m0 : Nat,
        (if 0 ≤ exponentOf n d then roundHalfEven n (d * 2 ^ (exponentOf n d).toNat)
          else roundHalfEven (n * 2 ^ (-(exponentOf n d)).toNat) d) = m0 ∧
        (m0 : ℚ) * (2 : ℚ) ^ (exponentOf n d) ≤ 2 ^ k := by
      refine ⟨_, rfl, ?_⟩
      by_cases hpos : 0 ≤ exponentOf n d
      · simp only [hpos, if_true]
        obtain ⟨E, hE⟩ := Int.eq_ofNat_of_zero_le hpos
        rw [hE]
        simp only [Int.toNat_ofNat]
        by_cases hEk : E ≤ k
        · apply cast_bound_nonneg
          have h1 : n ≤ 2 ^ (k - E) * (d * 2 ^ E) := by
            calc n ≤ 2 ^ k * d := h
              _ = 2 ^ (k - E) * (d * 2 ^ E) := by
                  have : 2 ^ k = 2 ^ (k - E) * 2 ^ E := by
                    rw [← Nat.pow_add]; congr 1; omega
                  rw [this]; ring
          have h2 := roundHalfEven_le n (d * 2 ^ E) (2 ^ (k - E)) (by positivity) h1
          calc roundHalfEven n (d * 2 ^ E) * 2 ^ E ≤ 2 ^ (k - E) * 2 ^ E :=
                Nat.mul_le_mul_right _ h2
            _ = 2 ^ k := by rw [← Nat.pow_add]; congr 1; omega
        · have h1 : 2 * n ≤ d * 2 ^ E := by
            calc 2 * n ≤ 2 * (2 ^ k * d) := Nat.mul_le_mul_left _ h
              _ = 2 ^ (k + 1) * d := by rw [Nat.pow_succ]; ring
              _ ≤ 2 ^ E * d :=
                  Nat.mul_le_mul_right _ (Nat.pow_le_pow_right (by norm_num) (by omega))
              _ = d * 2 ^ E := Nat.mul_comm _ _
          rw [roundHalfEven_eq_zero _ _ h1]
          simp
      · simp only [hpos, if_false]
        have hneg : 0 ≤ -(exponentOf n d) := by omega
        obtain ⟨E, hE⟩ := Int.eq_ofNat_of_zero_le hneg
        have hE2 : exponentOf n d = -(E : Int) := by omega
        rw [hE, hE2]
        simp only [Int.toNat_ofNat]
        apply cast_bound_neg
        apply roundHalfEven_le _ _ _ hd
        calc n * 2 ^ E ≤ 2 ^ k * d * 2 ^ E := Nat.mul_le_mul_right _ h
          _ = 2 ^ (k + E) * d := by rw [Nat.pow_add]; ring
    obtain ⟨m0, hm0, hb⟩ := key
    by_cases h53 : m0 = 2 ^ 53
    · refine ⟨2 ^ 52, exponentOf n d + 1, ?_, ?_, fun h0 => absurd h0 hn⟩
      · unfold round
        simp only [hn, if_false, hm0, h53, if_true]
        rw [if_neg (by omega)]
      · have : ((2 ^ 52 : Nat) : ℚ) * (2 : ℚ) ^ (exponentOf n d + 1) =
            ((2 ^ 53 : Nat) : ℚ) * (2 : ℚ) ^ (exponentOf n d) := by
          rw [zpow_add_one₀ (by norm_num)]
          push_cast
          ring
        rw [this, ← h53]
        exact hb
    · refine ⟨m0, exponentOf n d, ?_, hb, fun h0 => absurd h0 hn⟩
      unfold round
      simp only [hn, if_false, hm0, h53]
      rw [if_neg (by omega)]


theorem two_zpow_pos (e : Int) : (0 : ℚ) < (2 : ℚ) ^ e := zpow_pos (by norm_num) e

theorem roundScaled_bound (s : Bool) (n : Nat) (e : Int) (k : Nat) (hk : k ≤ 1022)
    (h : (n : ℚ) * (2 : ℚ) ^ e ≤ 2 ^ k) :
    ∃ m e2, roundScaled s n e = .fin s m e2 ∧ (m : ℚ) * (2 : ℚ) ^ e2 ≤ 2 ^ k ∧
      (n = 0 → m = 0) := by
  unfold roundScaled
  by_cases hpos : 0 ≤ e
  · simp only [hpos, if_true]
    obtain ⟨E, rfl⟩ := Int.eq_ofNat_of_zero_le hpos
    simp only [Int.toNat_ofNat]
    rw [zpow_natCast] at h
    have h1 : n * 2 ^ E ≤ 2 ^ k * 1 := by
      rw [Nat.mul_one]
      exact_mod_cast h
    obtain ⟨m, e2, hr, hb, hz⟩ := round_bound s (n * 2 ^ E) 1 k (by norm_num) hk h1
    exact ⟨m, e2, hr, hb, fun h0 => hz (by rw [h0, Nat.zero_mul])⟩
  · simp only [hpos, if_false]
    have hneg : 0 ≤ -e := by omega
    obtain ⟨E, hE⟩ := Int.eq_ofNat_of_zero_le hneg
    have hE2 : e = -(E : Int) := by omega
    rw [hE]
    simp only [Int.toNat_ofNat]
    rw [hE2, zpow_neg, zpow_natCast, ← div_eq_mul_inv,
      div_le_iff₀ (by positivity : (0 : ℚ) < 2 ^ E)] at h
    have h1 : n ≤ 2 ^ k * 2 ^ E := by exact_mod_cast h
    exact round_bound s n (2 ^ E) k (by positivity) hk h1

theorem scaledInt_cast (s : Bool) (m : Nat) (e c : Int) (h : c ≤ e ∨ m = 0) :
    ((scaledInt s m e c : Int) : ℚ) * (2 : ℚ) ^ c = toRat (.fin s m e) := by
  have hmag : (((m * 2 ^ (e - c).toNat : Nat) : Int) : ℚ) * (2 : ℚ) ^ c =
      (m : ℚ) * (2 : ℚ) ^ e := by
    rcases h with h | h
    · obtain ⟨D, hD⟩ := Int.eq_ofNat_of_zero_le (show 0 ≤ e - c by omega)
      rw [hD]
      simp only [Int.toNat_ofNat]
      have he : e = (D : Int) + c := by omega
      rw [he, zpow_add₀ (by norm_num : (2 : ℚ) ≠ 0), zpow_natCast]
      push_cast
      ring
    · subst h
      simp
  unfold scaledInt toRat
  cases s
  · simp only [Bool.false_eq_true, if_false, one_mul]
    exact hmag
  · simp only [if_true, Int.cast_neg, neg_mul, one_mul]
    rw [hmag]

theorem commonExp_le (m : Nat) (e : Int) (m2 : Nat) (e2 : Int) :
    (commonExp m e m2 e2 ≤ e ∨ m = 0) ∧ (commonExp m e m2 e2 ≤ e2 ∨ m2 = 0) := by
  unfold commonExp
  by_cases h1 : m = 0
  · simp [h1]
  · by_cases h2 : m2 = 0
    · simp [h1, h2]
    · simp only [h1, h2, if_false]
      omega

theorem le_fin_iff (s t : Bool) (m m2 : Nat) (e e2 : Int) :
    le (.fin s m e) (.fin t m2 e2) = true ↔ toRat (.fin s m e) ≤ toRat (.fin t m2 e2) := by
  obtain ⟨h1, h2⟩ := commonExp_le m e m2 e2
  rw [← scaledInt_cast s m e _ h1, ← scaledInt_cast t m2 e2 _ h2]
  rw [mul_le_mul_right (two_zpow_pos _)]
  simp only [le, decide_eq_true_eq]
  exact Int.cast_le.symm

theorem lt_fin_iff (s t : Bool) (m m2 : Nat) (e e2 : Int) :
    lt (.fin s m e) (.fin t m2 e2) = true ↔ toRat (.fin s m e) < toRat (.fin t m2 e2) := by
  obtain ⟨h1, h2⟩ := commonExp_le m e m2 e2
  rw [← scaledInt_cast s m e _ h1, ← scaledInt_cast t m2 e2 _ h2]
  rw [mul_lt_mul_right (two_zpow_pos _)]
  simp only [lt, decide_eq_true_eq]
  exact Int.cast_lt.symm

theorem div_bound (s t : Bool) (m m2 : Nat) (e e2 : Int) (k : Nat) (hm2 : m2 ≠ 0)
    (hk : k ≤ 1022)
    (h : (m : ℚ) * (2 : ℚ) ^ e ≤ 2 ^ k * ((m2 : ℚ) * (2 : ℚ) ^ e2)) :
    ∃ m3 e3, div (.fin s m e) (.fin t m2 e2) = .fin (s != t) m3 e3 ∧
      (m3 : ℚ) * (2 : ℚ) ^ e3 ≤ 2 ^ k ∧ (m = 0 → m3 = 0) := by
  unfold div
  simp only [hm2, if_false]
  by_cases hee : e2 ≤ e
  · simp only [hee, if_true]
    obtain ⟨D, hD⟩ := Int.eq_ofNat_of_zero_le (show 0 ≤ e - e2 by omega)
    rw [hD]
    simp only [Int.toNat_ofNat]
    have he : e = (D : Int) + e2 := by omega
    rw [he, zpow_add₀ (by norm_num : (2 : ℚ) ≠ 0), zpow_natCast] at h
    have h1 : (m : ℚ) * 2 ^ D ≤ 2 ^ k * (m2 : ℚ) := by
      have h2 : ((m : ℚ) * 2 ^ D) * (2 : ℚ) ^ e2 ≤ (2 ^ k * (m2 : ℚ)) * (2 : ℚ) ^ e2 := by
        calc ((m : ℚ) * 2 ^ D) * (2 : ℚ) ^ e2 = (m : ℚ) * (2 ^ D * (2 : ℚ) ^ e2) := by ring
          _ ≤ 2 ^ k * ((m2 : ℚ) * (2 : ℚ) ^ e2) := h
          _ = (2 ^ k * (m2 : ℚ)) * (2 : ℚ) ^ e2 := by ring
      exact le_of_mul_le_mul_right h2 (two_zpow_pos _)
    have h3 : m * 2 ^ D ≤ 2 ^ k * m2 := by exact_mod_cast h1
    obtain ⟨m3, e3, hr, hb, hz⟩ := round_bound (s != t) (m * 2 ^ D) m2 k (by omega) hk h3
    exact ⟨m3, e3, hr, hb, fun h0 => hz (by rw [h0, Nat.zero_mul])⟩
  · simp only [hee, if_false]
    obtain ⟨D, hD⟩ := Int.eq_ofNat_of_zero_le (show 0 ≤ e2 - e by omega)
    rw [hD]
    simp only [Int.toNat_ofNat]
    have he : e2 = (D : Int) + e := by omega
    rw [he, zpow_add₀ (by norm_num : (2 : ℚ) ≠ 0), zpow_natCast] at h
    have h1 : (m : ℚ) ≤ 2 ^ k * ((m2 : ℚ) * 2 ^ D) := by
      have h2 : (m : ℚ) * (2 : ℚ) ^ e ≤ (2 ^ k * ((m2 : ℚ) * 2 ^ D)) * (2 : ℚ) ^ e := by
        calc (m : ℚ) * (2 : ℚ) ^ e ≤ 2 ^ k * ((m2 : ℚ) * (2 ^ D * (2 : ℚ) ^ e)) := h
          _ = (2 ^ k * ((m2 : ℚ) * 2 ^ D)) * (2 : ℚ) ^ e := by ring
      exact le_of_mul_le_mul_right h2 (two_zpow_pos _)
    have h3 : m ≤ 2 ^ k * (m2 * 2 ^ D) := by exact_mod_cast h1
    exact round_bound (s != t) m (m2 * 2 ^ D) k (by positivity) hk h3

theorem mul_bound (s t : Bool) (m m2 : Nat) (e e2 : Int) (k : Nat) (hk : k ≤ 1022)
    (h : ((m : ℚ) * (2 : ℚ) ^ e) * ((m2 : ℚ) * (2 : ℚ) ^ e2) ≤ 2 ^ k) :
    ∃ m3 e3, mul (.fin s m e) (.fin t m2 e2) = .fin (s != t) m3 e3 ∧
      (m3 : ℚ) * (2 : ℚ) ^ e3 ≤ 2 ^ k ∧ (m = 0 → m3 = 0) := by
  have h1 : ((m * m2 : Nat) : ℚ) * (2 : ℚ) ^ (e + e2) ≤ 2 ^ k := by
    rw [zpow_add₀ (by norm_num : (2 : ℚ) ≠ 0)]
    push_cast
    calc (m : ℚ) * (m2 : ℚ) * ((2 : ℚ) ^ e * (2 : ℚ) ^ e2)
        = ((m : ℚ) * (2 : ℚ) ^ e) * ((m2 : ℚ) * (2 : ℚ) ^ e2) := by ring
      _ ≤ 2 ^ k := h
  obtain ⟨m3, e3, hr, hb, hz⟩ := roundScaled_bound (s != t) (m * m2) (e + e2) k hk h1
  exact ⟨m3, e3, hr, hb, fun h0 => hz (by rw [h0, Nat.zero_mul])⟩

theorem add_bound (s t : Bool) (m m2 : Nat) (e e2 : Int) (k : Nat) (hk : k ≤ 1022)
    (h : |toRat (.fin s m e) + toRat (.fin t m2 e2)| ≤ 2 ^ k) :
    ∃ s3 m3 e3, add (.fin s m e) (.fin t m2 e2) = .fin s3 m3 e3 ∧
      (m3 : ℚ) * (2 : ℚ) ^ e3 ≤ 2 ^ k := by
  obtain ⟨h1, h2⟩ := commonExp_le m e m2 e2
  unfold add
  simp only
  by_cases hz : scaledInt s m e (commonExp m e m2 e2) +
      scaledInt t m2 e2 (commonExp m e m2 e2) = 0
  · simp only [hz, if_true]
    exact ⟨_, 0, _, rfl, by simp⟩
  · simp only [hz, if_false]
    have hsum : ((scaledInt s m e (commonExp m e m2 e2) +
        scaledInt t m2 e2 (commonExp m e m2 e2) : Int) : ℚ) *
        (2 : ℚ) ^ (commonExp m e m2 e2) = toRat (.fin s m e) + toRat (.fin t m2 e2) := by
      rw [← scaledInt_cast s m e _ h1, ← scaledInt_cast t m2 e2 _ h2]
      push_cast
      ring
    have habs : (((scaledInt s m e (commonExp m e m2 e2) +
        scaledInt t m2 e2 (commonExp m e m2 e2)).natAbs : Nat) : ℚ) *
        (2 : ℚ) ^ (commonExp m e m2 e2) ≤ 2 ^ k := by
      rw [Nat.cast_natAbs, Int.cast_abs]
      rw [← abs_of_pos (two_zpow_pos (commonExp m e m2 e2)), ← abs_mul, hsum]
      exact h
    obtain ⟨m3, e3, hr, hb, -⟩ := roundScaled_bound _ _ _ k hk habs
    exact ⟨_, m3, e3, hr, hb⟩


theorem zero_eq : (0 : F64) = .fin false 0 (-1074) := by decide

theorem one_eq : (1 : F64) = .fin false (2 ^ 52) (-52) := by decide

theorem two_eq : (2 : F64) = .fin false (2 ^ 52) (-51) := by decide

theorem toRat_one : toRat (.fin false (2 ^ 52) (-52)) = 1 := by
  simp only [toRat, Bool.false_eq_true, if_false, one_mul]
  rw [zpow_neg]
  norm_num

theorem toRat_neg_one : toRat (.fin true (2 ^ 52) (-52)) = -1 := by
  simp only [toRat, if_true]
  rw [zpow_neg]
  norm_num

/-- A finite number of magnitude at most 1 lies between -1 and 1. -/
theorem le_one_of_bound (s : Bool) (m : Nat) (e : Int) (h : (m : ℚ) * (2 : ℚ) ^ e ≤ 1) :
    le (-1) (.fin s m e) = true ∧ le (.fin s m e) 1 = true := by
  have hnn : (0 : ℚ) ≤ (m : ℚ) * (2 : ℚ) ^ e :=
    mul_nonneg (Nat.cast_nonneg m) (two_zpow_pos e).le
  have hneg : (-1 : F64) = .fin true (2 ^ 52) (-52) := by decide
  rw [hneg, one_eq, le_fin_iff, le_fin_iff, toRat_one, toRat_neg_one]
  cases s
  · simp only [toRat, Bool.false_eq_true, if_false, one_mul]
    constructor <;> linarith
  · simp only [toRat, if_true]
    constructor <;> linarith

/-- The quotient of a non-negative number by a finite positive number that is
at least as large is finite, non-negative and at most 1. -/
theorem div_unit (x w : F64) (hfin : w.isFinite = true) (hw : lt 0 w = true)
    (hx0 : le 0 x = true) (hx1 : le x w = true) :
    ∃ s m e, x / w = .fin s m e ∧ (m : ℚ) * (2 : ℚ) ^ e ≤ 1 ∧ (s = true → m = 0) := by
  cases w with
  | nan => simp [isFinite] at hfin
  | inf t => simp [isFinite] at hfin
  | fin t m2 e2 =>
    cases x with
    | nan => simp [le] at hx1
    | inf u =>
      cases u
      · simp [le] at hx1
      · rw [zero_eq] at hx0
        simp [le] at hx0
    | fin s m e =>
      rw [zero_eq, lt_fin_iff] at hw
      rw [zero_eq, le_fin_iff] at hx0
      rw [le_fin_iff] at hx1
      have hp2 := two_zpow_pos e2
      have hp := two_zpow_pos e
      have hm2nn : (0 : ℚ) ≤ (m2 : ℚ) := Nat.cast_nonneg m2
      have hmnn : (0 : ℚ) ≤ (m : ℚ) := Nat.cast_nonneg m
      have hz : toRat (.fin false 0 (-1074)) = 0 := by simp [toRat]
      rw [hz] at hw hx0
      -- the divisor is positive
      have ht : t = false := by
        cases t
        · rfl
        · simp only [toRat, if_true] at hw
          have := mul_nonneg hm2nn hp2.le
          linarith
      subst ht
      simp only [toRat, Bool.false_eq_true, if_false, one_mul] at hw hx1
      have hm2 : m2 ≠ 0 := by
        rintro rfl
        simp at hw
      -- the dividend is zero or positive
      have hsm : s = true → m = 0 := by
        intro hs
        subst hs
        simp only [toRat, if_true] at hx0
        have h1 : (m : ℚ) * (2 : ℚ) ^ e ≤ 0 := by linarith
        have h2 : (m : ℚ) ≤ 0 := by
          by_contra hcon
          push_neg at hcon
          have := mul_pos hcon hp
          linarith
        have h3 : (m : ℚ) = 0 := le_antisymm h2 hmnn
        exact_mod_cast h3
      have hle : (m : ℚ) * (2 : ℚ) ^ e ≤ 2 ^ 0 * ((m2 : ℚ) * (2 : ℚ) ^ e2) := by
        rw [pow_zero, one_mul]
        cases s
        · simpa [toRat] using hx1
        · rw [hsm rfl]
          simp only [Nat.cast_zero, zero_mul]
          exact hw.le
      obtain ⟨m3, e3, hr, hb, hz3⟩ := div_bound s false m m2 e e2 0 hm2 (by norm_num) hle
      refine ⟨s, m3, e3, ?_, by simpa using hb, fun hs => hz3 (hsm hs)⟩
      show div (.fin s m e) (.fin false m2 e2) = _
      rw [hr]
      simp

/-- For `u` in the unit interval, `u * 2 - 1` lies between -1 and 1. -/
theorem times_two_minus_one_range (s : Bool) (m : Nat) (e : Int)
    (hb : (m : ℚ) * (2 : ℚ) ^ e ≤ 1) (hs : s = true → m = 0) :
    le (-1) ((.fin s m e : F64) * 2 - 1) = true ∧
      le ((.fin s m e : F64) * 2 - 1) 1 = true := by
  have hnn : (0 : ℚ) ≤ (m : ℚ) * (2 : ℚ) ^ e :=
    mul_nonneg (Nat.cast_nonneg m) (two_zpow_pos e).le
  have h2 : ((m : ℚ) * (2 : ℚ) ^ e) * (((2 ^ 52 : Nat) : ℚ) * (2 : ℚ) ^ (-51 : Int)) ≤ 2 ^ 1 := by
    have : (((2 ^ 52 : Nat) : ℚ) * (2 : ℚ) ^ (-51 : Int)) = 2 := by
      rw [zpow_neg]; norm_num
    rw [this]
    linarith
  obtain ⟨m3, e3, hr, hb3, hz3⟩ := mul_bound s false m (2 ^ 52) e (-51) 1 (by norm_num) h2
  have hmul : (.fin s m e : F64) * 2 = .fin s m3 e3 := by
    show mul (.fin s m e) 2 = _
    rw [two_eq, hr]
    simp
  have hnn3 : (0 : ℚ) ≤ (m3 : ℚ) * (2 : ℚ) ^ e3 :=
    mul_nonneg (Nat.cast_nonneg m3) (two_zpow_pos e3).le
  have habs : |toRat (.fin s m3 e3) + toRat (.fin true (2 ^ 52) (-52))| ≤ 2 ^ 0 := by
    rw [toRat_neg_one, pow_zero, abs_le]
    cases s
    · simp only [toRat, Bool.false_eq_true, if_false, one_mul]
      have : (m3 : ℚ) * (2 : ℚ) ^ e3 ≤ 2 := by simpa using hb3
      constructor <;> linarith
    · rw [hz3 (hs rfl)]
      simp [toRat]
  obtain ⟨s4, m4, e4, hr4, hb4⟩ := add_bound s true m3 (2 ^ 52) e3 (-52) 0 (by norm_num) habs
  have hsub : (.fin s m e : F64) * 2 - 1 = .fin s4 m4 e4 := by
    rw [hmul]
    show add (.fin s m3 e3) (neg 1) = _
    rw [one_eq]
    exact hr4
  rw [hsub]
  exact le_one_of_bound s4 m4 e4 (by simpa using hb4)

/-- For `u` in the unit interval, `-u * 2 + 1` lies between -1 and 1. -/
theorem neg_times_two_plus_one_range (s : Bool) (m : Nat) (e : Int)
    (hb : (m : ℚ) * (2 : ℚ) ^ e ≤ 1) (hs : s = true → m = 0) :
    le (-1) (-(.fin s m e : F64) * 2 + 1) = true ∧
      le (-(.fin s m e : F64) * 2 + 1) 1 = true := by
  have hnn : (0 : ℚ) ≤ (m : ℚ) * (2 : ℚ) ^ e :=
    mul_nonneg (Nat.cast_nonneg m) (two_zpow_pos e).le
  have h2 : ((m : ℚ) * (2 : ℚ) ^ e) * (((2 ^ 52 : Nat) : ℚ) * (2 : ℚ) ^ (-51 : Int)) ≤ 2 ^ 1 := by
    have : (((2 ^ 52 : Nat) : ℚ) * (2 : ℚ) ^ (-51 : Int)) = 2 := by
      rw [zpow_neg]; norm_num
    rw [this]
    linarith
  obtain ⟨m3, e3, hr, hb3, hz3⟩ := mul_bound (!s) false m (2 ^ 52) e (-51) 1 (by norm_num) h2
  have hmul : -(.fin s m e : F64) * 2 = .fin (!s) m3 e3 := by
    show mul (neg (.fin s m e)) 2 = _
    rw [two_eq]
    simp only [neg]
    rw [hr]
    simp
  have hnn3 : (0 : ℚ) ≤ (m3 : ℚ) * (2 : ℚ) ^ e3 :=
    mul_nonneg (Nat.cast_nonneg m3) (two_zpow_pos e3).le
  have habs : |toRat (.fin (!s) m3 e3) + toRat (.fin false (2 ^ 52) (-52))| ≤ 2 ^ 0 := by
    rw [toRat_one, pow_zero, abs_le]
    cases s
    · simp only [toRat, Bool.not_false, if_true]
      have : (m3 : ℚ) * (2 : ℚ) ^ e3 ≤ 2 := by simpa using hb3
      constructor <;> linarith
    · rw [hz3 (hs rfl)]
      simp [toRat]
  obtain ⟨s4, m4, e4, hr4, hb4⟩ :=
    add_bound (!s) false m3 (2 ^ 52) e3 (-52) 0 (by norm_num) habs
  have hadd : -(.fin s m e : F64) * 2 + 1 = .fin s4 m4 e4 := by
    rw [hmul]
    show add (.fin (!s) m3 e3) 1 = _
    rw [one_eq]
    exact hr4
  rw [hadd]
  exact le_one_of_bound s4 m4 e4 (by simpa using hb4)

end F64

/-! ## The reactive listeners -/

theorem tweensOf_append (a b : List Action) : tweensOf (a ++ b) = tweensOf a ++ tweensOf b := by
  simp [tweensOf, List.filterMap_append]

theorem headerListener_head (s : Scene) : (headerListener s).head = s.head := by
  by_cases hc : (s.scrollY.gt s.lastScrollY && s.scrollY.gt s.headerOffsetHeight) = true <;>
    simp [headerListener, hc]

theorem headerListener_trace (s : Scene) :
    ∃ a, (headerListener s).trace = s.trace ++ [a] ∧ a.touchesModel = false ∧
      tweensOf [a] = [] := by
  by_cases hc : (s.scrollY.gt s.lastScrollY && s.scrollY.gt s.headerOffsetHeight) = true
  · exact ⟨.headerClassAdd (utf16 "hidden"), by simp [headerListener, hc], rfl, rfl⟩
  · exact ⟨.headerClassRemove (utf16 "hidden"), by simp [headerListener, hc], rfl, rfl⟩

theorem parallaxListener_loaded (s : Scene) (m : Model) (h : s.head = some m) :
    ∃ s1, parallaxListener s = .ok s1 ∧ s1.head = s.head ∧
      s1.trace = s.trace ++
        [.readHead .position,
         .gsapTo .headPosition
            { y := some (.num (-3 + s.scrollY * (-0.01))), duration := 0.8,
              ease := utf16 "power2.out" },
         .gsapTo .lightPosition
            { y := some (.num (10 + s.scrollY * 0.008)), duration := 0.8,
              ease := utf16 "power2.out" },
         .gsapTo .contentOverlay
            { y := some (.num (s.scrollY * 0.015)), duration := 0.8,
              ease := utf16 "power2.out" }] := by
  refine ⟨{ s with trace := s.trace ++
        [.readHead .position,
         .gsapTo .headPosition
            { y := some (.num (-3 + s.scrollY * (-0.01))), duration := 0.8,
              ease := utf16 "power2.out" },
         .gsapTo .lightPosition
            { y := some (.num (10 + s.scrollY * 0.008)), duration := 0.8,
              ease := utf16 "power2.out" },
         .gsapTo .contentOverlay
            { y := some (.num (s.scrollY * 0.015)), duration := 0.8,
              ease := utf16 "power2.out" }] }, ?_, rfl, rfl⟩
  simp [parallaxListener, Scene.readHead, h, Scene.gsapTo, bind, Except.bind, pure,
    Except.pure]

theorem parallaxListener_unset (s : Scene) (h : s.head = none) :
    ∃ s1, parallaxListener s = .ok s1 ∧ s1.head = none ∧
      s1.trace = s.trace ++
        [.gsapTo .lightPosition
            { y := some (.num (10 + s.scrollY * 0.008)), duration := 0.8,
              ease := utf16 "power2.out" },
         .gsapTo .contentOverlay
            { y := some (.num (s.scrollY * 0.015)), duration := 0.8,
              ease := utf16 "power2.out" }] := by
  refine ⟨{ s with trace := s.trace ++
        [.gsapTo .lightPosition
            { y := some (.num (10 + s.scrollY * 0.008)), duration := 0.8,
              ease := utf16 "power2.out" },
         .gsapTo .contentOverlay
            { y := some (.num (s.scrollY * 0.015)), duration := 0.8,
              ease := utf16 "power2.out" }] }, ?_, h, rfl⟩
  simp [parallaxListener, h, Scene.gsapTo, bind, Except.bind, pure, Except.pure]

/-- C6, as stated, fails: at scroll offset 81 with the model loaded, the three
tweens issued are not the ones whose targets are the exact values of
-3 + 81 × (-0.01), 10 + 81 × 0.008 and 81 × 0.015, that is -3.81, 10.648 and
1.215 (the overlay target the code passes is the binary64 product of 81 and
0.015, one unit in the last place below 1.215). -/
theorem C6_exact_targets_counterexample :
    scrollTweens loadedScene 81 ≠ some
      [(.headPosition,
          { y := some (.num (-3.81)), duration := 0.8, ease := utf16 "power2.out" }),
       (.lightPosition,
          { y := some (.num 10.648), duration := 0.8, ease := utf16 "power2.out" }),
       (.contentOverlay,
          { y := some (.num 1.215), duration := 0.8, ease := utf16 "power2.out" })] := by
  decide

/-- C6, amended: for every scroll offset, once the model is loaded, the scroll
listeners run without a fault and issue exactly three tweens, whose targets are
the binary64 results (each operation and literal rounded) of
-3 + s × (-0.01) for the model position, 10 + s × 0.008 for the light position
and s × 0.015 for the content overlay, each with duration 0.8 and the ease
'power2.out'. -/
theorem C6_scroll_tweens (s : Scene) (m : Model) (sy : F64) (h : s.head = some m) :
    ∃ s2, dispatch s (.scroll sy) = .ok s2 ∧
      tweensOf s2.trace = tweensOf s.trace ++
        [(.headPosition,
            { y := some (.num (-3 + sy * (-0.01))), duration := 0.8,
              ease := utf16 "power2.out" }),
         (.lightPosition,
            { y := some (.num (10 + sy * 0.008)), duration := 0.8,
              ease := utf16 "power2.out" }),
         (.contentOverlay,
            { y := some (.num (sy * 0.015)), duration := 0.8,
              ease := utf16 "power2.out" })] := by
  obtain ⟨s1, h1, -, ht1⟩ := parallaxListener_loaded { s with scrollY := sy } m h
  obtain ⟨a, ha, -, hta⟩ := headerListener_trace s1
  refine ⟨headerListener s1, ?_, ?_⟩
  · simp only [dispatch, h1, bind, Except.bind, pure, Except.pure]
  · rw [ha, tweensOf_append, hta, ht1, tweensOf_append]
    simp [tweensOf]

/-- C6, amended, at the loaded example scene and scroll offset 81. -/
theorem C6_scroll_tweens_witness :
    ∃ s2, dispatch loadedScene (.scroll 81) = .ok s2 ∧
      tweensOf s2.trace = tweensOf loadedScene.trace ++
        [(.headPosition,
            { y := some (.num (-3 + (81 : F64) * (-0.01))), duration := 0.8,
              ease := utf16 "power2.out" }),
         (.lightPosition,
            { y := some (.num (10 + (81 : F64) * 0.008)), duration := 0.8,
              ease := utf16 "power2.out" }),
         (.contentOverlay,
            { y := some (.num ((81 : F64) * 0.015)), duration := 0.8,
              ease := utf16 "power2.out" })] :=
  C6_scroll_tweens loadedScene _ 81 rfl

/-- An unguarded property read on an unset model is a fault. -/
theorem readHead_unset (s : Scene) (prop : HeadProp) (h : s.head = none) :
    s.readHead prop = .error .typeError := by
  simp [Scene.readHead, h]

theorem mousemoveListener_loaded (s : Scene) (m : Model) (cx cy : F64) (h : s.head = some m) :
    mousemoveListener s cx cy = .ok { s with trace := s.trace ++
      [.readHead .rotation,
       .gsapTo .headRotation
          { y := some (.num (mouseX cx s.innerWidth * 0.1)),
            x := some (.num (mouseY cy s.innerHeight * 0.1)), duration := 0.8,
            ease := utf16 "power2.out" }] } := by
  simp [mousemoveListener, Scene.readHead, h, Scene.gsapTo, bind, Except.bind, pure,
    Except.pure]

theorem mousemoveListener_unset (s : Scene) (cx cy : F64) (h : s.head = none) :
    mousemoveListener s cx cy = .ok s := by
  simp [mousemoveListener, h, pure, Except.pure]

/-- C7, as stated, fails: with the model loaded and the pointer at (100, 100) in
an 800 by 600 window, the exact values are px = -3/4 and py = 2/3, so the
claimed target is x = py × 0.1 = 1/15 and y = px × 0.1 = -0.075; the tween
issued is not the one with these targets (each taken as the nearest binary64
value). -/
theorem C7_exact_target_counterexample :
    pointerTweens loadedScene 100 100 ≠ some
      [(.headRotation,
          { x := some (.num (F64.round false 1 15)), y := some (.num (-0.075)),
            duration := 0.8, ease := utf16 "power2.out" })] := by
  decide

/-- C7, amended: for a pointer event inside a viewport of positive finite size,
the normalised pointer px = clientX/innerWidth × 2 - 1 and
py = -(clientY/innerHeight) × 2 + 1, computed in binary64, both lie in [-1, 1],
and once the model is loaded the listener runs without a fault and issues
exactly one tween, on the model rotation, whose target is the binary64
products x = py × 0.1 and y = px × 0.1 (duration 0.8, ease 'power2.out'). -/
theorem C7_pointer_rotation (s : Scene) (m : Model) (cx cy : F64) (h : s.head = some m)
    (hw : s.innerWidth.isFinite = true ∧ F64.lt 0 s.innerWidth = true)
    (hh : s.innerHeight.isFinite = true ∧ F64.lt 0 s.innerHeight = true)
    (hx : F64.le 0 cx = true ∧ F64.le cx s.innerWidth = true)
    (hy : F64.le 0 cy = true ∧ F64.le cy s.innerHeight = true) :
    (mouseX cx s.innerWidth = cx / s.innerWidth * 2 - 1 ∧
      mouseY cy s.innerHeight = -(cy / s.innerHeight) * 2 + 1) ∧
    (F64.le (-1) (mouseX cx s.innerWidth) = true ∧
      F64.le (mouseX cx s.innerWidth) 1 = true) ∧
    (F64.le (-1) (mouseY cy s.innerHeight) = true ∧
      F64.le (mouseY cy s.innerHeight) 1 = true) ∧
    ∃ s2, dispatch s (.mousemove cx cy) = .ok s2 ∧
      tweensOf s2.trace = tweensOf s.trace ++
        [(.headRotation,
            { x := some (.num (mouseY cy s.innerHeight * 0.1)),
              y := some (.num (mouseX cx s.innerWidth * 0.1)), duration := 0.8,
              ease := utf16 "power2.out" })] := by
  obtain ⟨sx, mx, ex, hux, hbx, hsx⟩ := F64.div_unit cx s.innerWidth hw.1 hw.2 hx.1 hx.2
  obtain ⟨sy, my, ey, huy, hby, hsy⟩ := F64.div_unit cy s.innerHeight hh.1 hh.2 hy.1 hy.2
  refine ⟨⟨rfl, rfl⟩, ?_, ?_, ⟨_, mousemoveListener_loaded s m cx cy h, ?_⟩⟩
  · unfold mouseX
    rw [hux]
    exact F64.times_two_minus_one_range sx mx ex hbx hsx
  · unfold mouseY
    rw [huy]
    exact F64.neg_times_two_plus_one_range sy my ey hby hsy
  · rw [tweensOf_append]
    simp [tweensOf]

/-- C7, amended, at the loaded example scene (800 by 600) and the pointer at
(100, 100). -/
theorem C7_pointer_rotation_witness :
    (F64.le (-1) (mouseX 100 loadedScene.innerWidth) = true ∧
      F64.le (mouseX 100 loadedScene.innerWidth) 1 = true) ∧
    (F64.le (-1) (mouseY 100 loadedScene.innerHeight) = true ∧
      F64.le (mouseY 100 loadedScene.innerHeight) 1 = true) ∧
    ∃ s2, dispatch loadedScene (.mousemove 100 100) = .ok s2 ∧
      tweensOf s2.trace = tweensOf loadedScene.trace ++
        [(.headRotation,
            { x := some (.num (mouseY 100 loadedScene.innerHeight * 0.1)),
              y := some (.num (mouseX 100 loadedScene.innerWidth * 0.1)), duration := 0.8,
              ease := utf16 "power2.out" })] :=
  (C7_pointer_rotation loadedScene _ 100 100 rfl (by decide) (by decide) (by decide)
    (by decide)).2

/-- One event that is not the load success, delivered while the model is unset:
no fault, the model stays unset, nothing logged touches the model. -/
theorem dispatch_unset (s : Scene) (e : Event) (h : s.head = none)
    (he : e.isLoadSuccess = false) :
    ∃ s2 added, dispatch s e = .ok s2 ∧ s2.head = none ∧ s2.trace = s.trace ++ added ∧
      ∀ a ∈ added, a.touchesModel = false := by
  cases e with
  | scroll sy =>
    obtain ⟨s1, h1, hh1, ht1⟩ := parallaxListener_unset { s with scrollY := sy } h
    obtain ⟨a, ha, hma, -⟩ := headerListener_trace s1
    refine ⟨headerListener s1,
      [.gsapTo .lightPosition
          { y := some (.num (10 + sy * 0.008)), duration := 0.8, ease := utf16 "power2.out" },
        .gsapTo .contentOverlay
          { y := some (.num (sy * 0.015)), duration := 0.8, ease := utf16 "power2.out" },
        a], ?_, ?_, ?_, ?_⟩
    · simp only [dispatch, h1, bind, Except.bind, pure, Except.pure]
    · rw [headerListener_head, hh1]
    · rw [ha, ht1]
      simp
    · intro b hb
      simp only [List.mem_cons, List.mem_singleton, List.not_mem_nil, or_false] at hb
      rcases hb with rfl | rfl | rfl
      · rfl
      · rfl
      · exact hma
  | mousemove cx cy =>
    exact ⟨s, [], mousemoveListener_unset s cx cy h, h, by simp, by simp⟩
  | resize w hgt =>
    exact ⟨_, [], rfl, h, by simp [resizeListener], by simp⟩
  | loadProgress loaded total =>
    exact ⟨_, [.consoleLog (loaded / total * 100)], rfl, h, rfl, by simp [Action.touchesModel]⟩
  | loadError =>
    exact ⟨_, [.consoleError], rfl, h, rfl, by simp [Action.touchesModel]⟩
  | loadSuccess g => simp [Event.isLoadSuccess] at he

/-- C8: while the model is unset, every sequence of events other than the load
success (scrolls, pointer moves, resizes, load progress, load error) is handled
without a fault, leaves the model unset, and logs no read of a model property
and no tween on the model position or rotation. -/
theorem C8_unset_model_is_noop (s : Scene) (evs : List Event) (h : s.head = none)
    (hev : ∀ e ∈ evs, e.isLoadSuccess = false) :
    ∃ s2 added, run s evs = .ok s2 ∧ s2.head = none ∧ s2.trace = s.trace ++ added ∧
      ∀ a ∈ added, a.touchesModel = false := by
  induction evs generalizing s with
  | nil => exact ⟨s, [], rfl, h, by simp, by simp⟩
  | cons e es ih =>
    obtain ⟨s1, add1, hd, hh1, ht1, hm1⟩ :=
      dispatch_unset s e h (hev e (List.mem_cons_self _ _))
    obtain ⟨s2, add2, hr, hh2, ht2, hm2⟩ :=
      ih s1 hh1 (fun x hx => hev x (List.mem_cons_of_mem _ hx))
    refine ⟨s2, add1 ++ add2, ?_, hh2, ?_, ?_⟩
    · simp only [run, hd, bind, Except.bind]
      exact hr
    · rw [ht2, ht1, List.append_assoc]
    · intro a ha
      rcases List.mem_append.1 ha with ha | ha
      · exact hm1 a ha
      · exact hm2 a ha

/-- C8 at the example session: scrolls and pointer moves before and after a
load error, in a scene whose model never loads. -/
theorem C8_unset_model_is_noop_witness :
    ∃ s2 added, run pendingScene failedLoadSession = .ok s2 ∧ s2.head = none ∧
      s2.trace = pendingScene.trace ++ added ∧ ∀ a ∈ added, a.touchesModel = false :=
  C8_unset_model_is_noop pendingScene failedLoadSession rfl (by decide)

/-! ## Section and skill-bar triggers -/

theorem updateAt_get?_same {α : Type} (f : α → α) (i : Nat) (l : List α) :
    (updateAt f i l).get? i = (l.get? i).map f := by
  induction l generalizing i with
  | nil => simp [updateAt]
  | cons a t ih =>
    cases i with
    | zero => simp [updateAt]
    | succ n => simpa [updateAt] using ih n

theorem updateAt_get?_ne {α : Type} (f : α → α) (i j : Nat) (l : List α) (h : j ≠ i) :
    (updateAt f j l).get? i = l.get? i := by
  induction l generalizing i j with
  | nil => simp [updateAt]
  | cons a t ih =>
    cases j with
    | zero =>
      cases i with
      | zero => exact absurd rfl h
      | succ n => simp [updateAt]
    | succ m =>
      cases i with
      | zero => simp [updateAt]
      | succ n =>
        have hne : m ≠ n := fun hmn => h (by rw [hmn])
        simpa [updateAt] using ih n m hne

theorem updateAt_id_of_get? {α : Type} (f : α → α) (i : Nat) (l : List α)
    (h : ∀ a, l.get? i = some a → f a = a) : updateAt f i l = l := by
  induction l generalizing i with
  | nil => simp [updateAt]
  | cons a t ih =>
    cases i with
    | zero => simp [updateAt, h a (by simp)]
    | succ n =>
      simp only [updateAt, List.cons.injEq, true_and]
      exact ih n (fun b hb => h b (by simpa using hb))

theorem sectionCallback_contains (ev : TriggerEvent) (cl : List JSString) :
    (sectionCallback ev cl).contains (utf16 "show") = ev.isEnter := by
  cases ev
  · by_cases h : utf16 "show" ∈ cl <;>
      simp [sectionCallback, classListAdd, TriggerEvent.isEnter, h]
  · by_cases h : utf16 "show" ∈ cl <;>
      simp [sectionCallback, classListAdd, TriggerEvent.isEnter, h]
  · simp [sectionCallback, classListRemove, TriggerEvent.isEnter]
  · simp [sectionCallback, classListRemove, TriggerEvent.isEnter]

theorem sectionCallback_enter_of_shown (ev : TriggerEvent) (cl : List JSString)
    (hev : ev.isEnter = true) (h : cl.contains (utf16 "show") = true) :
    sectionCallback ev cl = cl := by
  have hmem : utf16 "show" ∈ cl := by simpa using h
  cases ev
  · simp [sectionCallback, classListAdd, hmem]
  · simp [sectionCallback, classListAdd, hmem]
  · simp [TriggerEvent.isEnter] at hev
  · simp [TriggerEvent.isEnter] at hev

theorem runSections_append (secs : List (List JSString)) (a b : List (Nat × TriggerEvent)) :
    runSections secs (a ++ b) = runSections (runSections secs a) b := by
  simp [runSections, List.foldl_append]

theorem runSections_cons (secs : List (List JSString)) (e : Nat × TriggerEvent)
    (es : List (Nat × TriggerEvent)) :
    runSections secs (e :: es) = runSections (fireSection secs e.1 e.2) es := rfl

theorem updateAt_length {α : Type} (f : α → α) (i : Nat) (l : List α) :
    (updateAt f i l).length = l.length := by
  induction l generalizing i with
  | nil => simp [updateAt]
  | cons a t ih => cases i <;> simp [updateAt, ih]

theorem runSections_length (secs : List (List JSString)) (evs : List (Nat × TriggerEvent)) :
    (runSections secs evs).length = secs.length := by
  induction evs generalizing secs with
  | nil => rfl
  | cons e es ih =>
    rw [runSections_cons, ih]
    exact updateAt_length _ _ _

theorem runSections_get?_of_others (secs : List (List JSString)) (i : Nat)
    (evs : List (Nat × TriggerEvent)) (h : ∀ e ∈ evs, e.1 ≠ i) :
    (runSections secs evs).get? i = secs.get? i := by
  induction evs generalizing secs with
  | nil => rfl
  | cons e es ih =>
    rw [runSections_cons, ih _ (fun x hx => h x (List.mem_cons_of_mem _ hx))]
    exact updateAt_get?_ne _ _ _ _ (h e (List.mem_cons_self _ _))

/-- C9: for every section of the page and every sequence of trigger events, if
the most recent event of that section is `ev`, the section carries `show`
exactly when `ev` is an enter event (in either direction); events of other
sections do not change it; and an enter event on a section that is already
shown leaves the whole state unchanged. -/
theorem C9_section_shown_iff_last_enter (sections : List (List JSString)) (i : Nat)
    (hi : i < sections.length) (before after : List (Nat × TriggerEvent))
    (ev : TriggerEvent) (hafter : ∀ e ∈ after, e.1 ≠ i) :
    isShown (runSections sections (before ++ (i, ev) :: after)) i = ev.isEnter ∧
    isShown (runSections sections after) i = isShown sections i ∧
    (∀ (secs : List (List JSString)) (j : Nat) (e : TriggerEvent),
      e.isEnter = true → isShown secs j = true → fireSection secs j e = secs) := by
  refine ⟨?_, ?_, ?_⟩
  · have hi2 : i < (runSections sections before).length := by
      rw [runSections_length]; exact hi
    obtain ⟨cl, hcl⟩ : ∃ cl, (runSections sections before).get? i = some cl :=
      ⟨_, List.get?_eq_get hi2⟩
    unfold isShown
    rw [runSections_append, runSections_cons, runSections_get?_of_others _ _ _ hafter]
    simp only [fireSection]
    rw [updateAt_get?_same, hcl]
    exact sectionCallback_contains ev cl
  · unfold isShown
    rw [runSections_get?_of_others _ _ _ hafter]
  · intro secs j e he hs
    unfold fireSection
    apply updateAt_id_of_get?
    intro cl hcl
    unfold isShown at hs
    rw [hcl] at hs
    exact sectionCallback_enter_of_shown e cl he hs

/-- C9 at the example page: the first section is entered, left, then entered
from below, while the other sections fire too; it ends shown. -/
theorem C9_section_shown_iff_last_enter_witness :
    isShown (runSections sampleSections
      ([(0, .onEnter), (1, .onLeave), (0, .onLeave)] ++
        (0, .onEnterBack) :: [(2, .onEnter), (1, .onLeaveBack)])) 0 =
      TriggerEvent.isEnter .onEnterBack :=
  (C9_section_shown_iff_last_enter sampleSections 0 (by decide)
    [(0, .onEnter), (1, .onLeave), (0, .onLeave)] [(2, .onEnter), (1, .onLeaveBack)]
    .onEnterBack (by decide)).1

/-- C10: for a skill item with configured progress `p`, each enter event of its
trigger issues exactly one tween, a width tween on the fill element of that item
with target "p%", and each leave event exactly one width tween on it with
target 0, all with duration 1.2 and the ease 'power2.out'; no tween it issues is
on a different fill element of another item. -/
theorem C10_skill_tweens (items : List SkillItem) (i : Nat) (item : SkillItem)
    (p : JSString) (ev : TriggerEvent) (hitem : items.get? i = some item)
    (hp : item.progress = some p) :
    fireSkill items i ev =
      [(.progressFill item.progressFill,
        { width := some (if ev.isEnter then .str (p ++ utf16 "%") else .num 0),
          duration := 1.2, ease := utf16 "power2.out" })] ∧
    ∀ (j : Nat) (other : SkillItem), items.get? j = some other →
      other.progressFill ≠ item.progressFill →
      ∀ t ∈ fireSkill items i ev, t.1 ≠ .progressFill other.progressFill := by
  have hfire : fireSkill items i ev =
      [(.progressFill item.progressFill,
        { width := some (if ev.isEnter then .str (p ++ utf16 "%") else .num 0),
          duration := 1.2, ease := utf16 "power2.out" })] := by
    unfold fireSkill
    rw [hitem]
    cases ev <;> simp [skillCallback, hp, toStringOrUndefined, TriggerEvent.isEnter]
  refine ⟨hfire, ?_⟩
  intro j other _ hne t ht
  rw [hfire, List.mem_singleton] at ht
  rw [ht]
  intro heq
  exact hne (TweenTarget.progressFill.inj heq).symm

/-- C10 at the example page: the item configured with progress 75 enters; the
width target is "75%", and the fill element of the other item is not tweened. -/
theorem C10_skill_tweens_witness :
    fireSkill sampleSkills 0 .onEnter =
      [(.progressFill (some 10),
        { width := some (if TriggerEvent.isEnter .onEnter then .str (utf16 "75" ++ utf16 "%")
            else .num 0),
          duration := 1.2, ease := utf16 "power2.out" })] ∧
    ∀ t ∈ fireSkill sampleSkills 0 .onEnter, t.1 ≠ .progressFill (some 20) :=
  ⟨(C10_skill_tweens sampleSkills 0 _ (utf16 "75") .onEnter rfl rfl).1,
    (C10_skill_tweens sampleSkills 0 _ (utf16 "75") .onEnter rfl rfl).2 1 _ rfl (by decide)⟩

end Portfolio
